import Mathlib

/-! # Remote signer (`signer/remote_signer.go`)

A shallow embedding of the request handlers, the supervisor loop and the
start/stop path of `ReconnRemoteSigner`, with the properties proved about them.

Conventions of the embedding

* Go `int64`/`int32`/`int` values are integers; the one place where the
  program does arithmetic on them (`vote.Height - previous…Height`) wraps to 64
  bits (`subInt64`), and every conversion `float64(…)` of an `int64` or `int32`
  variable rounds it to the nearest double (`float64`); the constant
  `float64(1)` is 1.
* The package-level variables written by the handlers (the two
  `previous…Height` variables, the metric cells, the time keeper) are the fields
  of `World`; the signing authority behind `rs.privVal` is a record of
  state-passing functions over an arbitrary state type, and every call made
  through it is appended to `World.pvCalls`.
* A Go run-time panic is the result `none`.
* The `*tmproto.Vote` / `*tmproto.Proposal` of a request is an `Option`: `none`
  is the nil pointer, on which every field access of the handlers panics.
-/

namespace Horcrux

/-! ## Machine integers -/

/-- Two's-complement wrap of an integer to the range of Go's `int64`. -/
def wrapInt64 (x : Int) : Int := (x + 2 ^ 63) % 2 ^ 64 - 2 ^ 63

/-- Go's `a - b` on `int64`. -/
def subInt64 (a b : Int) : Int := wrapInt64 (a - b)

/-- The number of low bits that do not fit the 53-bit significand of a double:
the least `e` with `n / 2 ^ e < 2 ^ 53` (the first argument bounds the search). -/
def excessBits : Nat → Nat → Nat
  | 0, _ => 0
  | fuel + 1, n => if n < 2 ^ 53 then 0 else excessBits fuel (n / 2) + 1

/-- Rounds `n` to a multiple of `2 ^ e`, to the nearest one and, half way between
two, to the one with the even quotient. -/
def roundToEven (n e : Nat) : Nat :=
  let q := n / 2 ^ e
  let r := n % 2 ^ e
  if 2 * r > 2 ^ e ∨ (2 * r = 2 ^ e ∧ q % 2 = 1) then (q + 1) * 2 ^ e else q * 2 ^ e

/-- Go's `float64(x)` for an integer `x`, as the integer that the resulting
double is: `x` itself up to `2 ^ 53` in magnitude, and beyond that `x` rounded
to 53 significant bits, ties to even. -/
def float64 (x : Int) : Int :=
  x.sign * (roundToEven x.natAbs (excessBits x.natAbs x.natAbs) : Nat)

/-! ## Wire types (`tmproto`, `tmprotoprivval`, `tmprotocrypto`) -/

abbrev Bytes := List (Fin 256)

/-- Go's `tmproto.PrevoteType` (`SignedMsgType` is an `int32` enumeration). -/
def PrevoteType : Int := 1

/-- Go's `tmproto.PrecommitType`. -/
def PrecommitType : Int := 2

structure PartSetHeader where
  Total : Nat := 0
  Hash : Bytes := []
deriving DecidableEq

structure BlockID where
  Hash : Bytes := []
  PartSetHeader : PartSetHeader := {}
deriving DecidableEq

/-- Go's `tmproto.Vote`; the default value of every field is Go's zero value, so
`{}` is `tmproto.Vote{}`. -/
structure Vote where
  Type_ : Int := 0
  Height : Int := 0
  Round : Int := 0
  BlockID : BlockID := {}
  Timestamp : Int := 0
  ValidatorAddress : Bytes := []
  ValidatorIndex : Int := 0
  Signature : Bytes := []
deriving DecidableEq

/-- Go's `tmproto.Proposal`; `{}` is `tmproto.Proposal{}`. -/
structure Proposal where
  Type_ : Int := 0
  Height : Int := 0
  Round : Int := 0
  PolRound : Int := 0
  BlockID : BlockID := {}
  Timestamp : Int := 0
  Signature : Bytes := []
deriving DecidableEq

/-- Go's `tmprotocrypto.PublicKey`: a one-of that is unset in `PublicKey{}`. -/
inductive PublicKey where
  | empty
  | Ed25519 (key : Bytes)
  | Secp256K1 (key : Bytes)
deriving DecidableEq

/-- The key bytes carried by a wire public key (none when the one-of is unset). -/
def PublicKey.keyBytes : PublicKey → Bytes
  | .empty => []
  | .Ed25519 k => k
  | .Secp256K1 k => k

/-- Go's `tmprotoprivval.RemoteSignerError`. -/
structure RemoteSignerError where
  Code : Int
  Description : String
deriving DecidableEq

/-- The one-of `Sum` of `tmprotoprivval.Message`. The `Vote` of a
`SignVoteRequest` and the `Proposal` of a `SignProposalRequest` are pointers:
`none` is nil (a request decoded without that field). `SignVoteRequestNil` and
`SignProposalRequestNil` are the one-of of those two types whose request
pointer is itself nil. -/
inductive MessageSum where
  | PubKeyRequest (chainId : String)
  | PubKeyResponse (PubKey : PublicKey) (Error : Option RemoteSignerError)
  | SignVoteRequest (Vote : Option Vote) (chainId : String)
  | SignVoteRequestNil
  | SignedVoteResponse (Vote : Vote) (Error : Option RemoteSignerError)
  | SignProposalRequest (Proposal : Option Proposal) (chainId : String)
  | SignProposalRequestNil
  | SignedProposalResponse (Proposal : Proposal) (Error : Option RemoteSignerError)
  | PingRequest
  | PingResponse
deriving DecidableEq

/-- Go's `tmprotoprivval.Message`; `⟨none⟩` is `tmprotoprivval.Message{}`. -/
structure Message where
  Sum : Option MessageSum
deriving DecidableEq

/-! ## Errors and the signing authority -/

/-- A non-nil Go `error` as the handlers see it: either a `*BeyondBlockError`
(a type declared outside `src/`: its `msg` field, read for the debug line, and
the text of its `Error()` are carried as data), or a value of any other dynamic
type (the text of its `Error()`). -/
inductive GoError where
  | BeyondBlockError (msg : String) (text : String)
  | other (text : String)
deriving DecidableEq

/-- Go's `err.Error()`. -/
def GoError.Error : GoError → String
  | .BeyondBlockError _ text => text
  | .other text => text

/-- A public key as returned by the authority (`crypto.PubKey`). -/
structure PubKey where
  keyType : String
  key : Bytes
deriving DecidableEq

/-- The interface `PrivValidator` over an authority with state `σ`. `SignVote`
and `SignProposal` receive a pointer: on a pointer that is not nil they return
the pointee as they leave it together with the error (`none` is Go's `nil`);
`SignVoteNil` and `SignProposalNil` are the same methods called on the nil
pointer, where there is no pointee and only the error comes back. -/
structure PrivValidator (σ : Type) where
  SignVote : σ → String → Vote → σ × Vote × Option GoError
  SignVoteNil : σ → String → σ × Option GoError
  SignProposal : σ → String → Proposal → σ × Proposal × Option GoError
  SignProposalNil : σ → String → σ × Option GoError
  GetPubKey : σ → σ × Except GoError PubKey
  Stop : σ → σ

/-- One call made through `rs.privVal`. -/
inductive PvCall where
  | SignVote (chainID : String) (vote : Option Vote)
  | SignProposal (chainID : String) (proposal : Option Proposal)
  | GetPubKey
  | Stop
deriving DecidableEq

/-! ## Process-wide state -/

/-- Modelled from the spec: the named counters and gauges of the observability
sink, whose declarations are not in `src/`. Each cell holds a number: `Set`
stores its operand, `Add` adds its operand and `Inc` adds one, exactly. The
operands are the doubles that the call sites make with `float64(…)`, which are
integers. -/
structure Metrics where
  sentryConnectTries : Int := 0
  totalSentryConnectTries : Int := 0
  beyondBlockErrors : Int := 0
  failedSignVote : Int := 0
  missedPrecommits : Int := 0
  totalMissedPrecommits : Int := 0
  missedPrevotes : Int := 0
  totalMissedPrevotes : Int := 0
  lastPrecommitHeight : Int := 0
  lastPrecommitRound : Int := 0
  totalPrecommitsSigned : Int := 0
  lastPrevoteHeight : Int := 0
  lastPrevoteRound : Int := 0
  totalPrevotesSigned : Int := 0
  lastProposalHeight : Int := 0
  lastProposalRound : Int := 0
  totalProposalsSigned : Int := 0
  totalPubKeyRequests : Int := 0
deriving DecidableEq

/-- Modelled from the spec: the two instants kept by `metricsTimeKeeper`, whose
declaration is not in `src/`. -/
structure TimeKeeper where
  previousPrecommit : Int := 0
  previousPrevote : Int := 0
deriving DecidableEq

inductive LogLevel where
  | debug
  | info
  | error
deriving DecidableEq

/-- One line handed to `rs.Logger`: its level, its message and, for the
"Signed vote" line, the signature prefix `vote.Signature[:sigLen]`. -/
structure LogEntry where
  level : LogLevel
  msg : String
  sig : Bytes := []
deriving DecidableEq

/-- Modelled from the spec: the process-wide state, whose declarations are not
in `src/`. `previousPrecommitHeight` and `previousPrevoteHeight` are the two
package-level `int64` variables (0 is "no prior signature"); with them go the
metric cells, the time keeper, the lines logged, and the authority behind
`rs.privVal` (its state and the calls made through it so far). -/
structure World (σ : Type) where
  previousPrecommitHeight : Int := 0
  previousPrevoteHeight : Int := 0
  metrics : Metrics := {}
  metricsTimeKeeper : TimeKeeper := {}
  log : List LogEntry := []
  pvCalls : List PvCall := []
  pv : σ

/-- The fields of `ReconnRemoteSigner` that the handlers read. -/
structure ReconnRemoteSigner (σ : Type) where
  chainID : String
  address : String
  privVal : PrivValidator σ

/-- What the handlers obtain from outside the package: the clock (`time.Now()`)
and the wire conversion `tmcryptoencoding.PubKeyToProto`. -/
structure Env where
  now : Int
  PubKeyToProto : PubKey → Except GoError PublicKey

/-! ## Metric and logger operations -/

/-- The updates `rs.Logger.Debug/Info/Error` make to the world. -/
def World.logLine {σ : Type} (w : World σ) (level : LogLevel) (msg : String)
    (sig : Bytes) : World σ :=
  { w with log := w.log ++ [{ level := level, msg := msg, sig := sig }] }

/-- Records one call made through `rs.privVal` and the authority's new state. -/
def World.called {σ : Type} (w : World σ) (c : PvCall) (pv1 : σ) : World σ :=
  { w with pvCalls := w.pvCalls ++ [c], pv := pv1 }

/-- Go's `xs[:hi]` on a slice whose capacity is its length: a panic (`none`)
when `hi` is out of range. -/
def sliceTo (xs : Bytes) (hi : Nat) : Option Bytes :=
  if hi ≤ xs.length then some (xs.take hi) else none

/-! ## The request handlers -/

/-- Go's `getRemoteSignerError`. -/
def getRemoteSignerError (err : Option GoError) : Option RemoteSignerError :=
  match err with
  | none => none
  | some e => some { Code := 0, Description := e.Error }

/-- The `if vote.Type == tmproto.PrecommitType` block of
`handleSignVoteRequest`. -/
def recordPrecommit {σ : Type} (env : Env) (w : World σ) (vote : Vote) : World σ :=
  let stepSize := subInt64 vote.Height w.previousPrecommitHeight
  let m := w.metrics
  let m :=
    if w.previousPrecommitHeight ≠ 0 ∧ stepSize > 1 then
      { m with missedPrecommits := m.missedPrecommits + float64 stepSize,
               totalMissedPrecommits := m.totalMissedPrecommits + float64 stepSize }
    else
      { m with missedPrecommits := 0 }
  { w with
    previousPrecommitHeight := vote.Height,
    metricsTimeKeeper := { w.metricsTimeKeeper with previousPrecommit := env.now },
    metrics := { m with lastPrecommitHeight := float64 vote.Height,
                        lastPrecommitRound := float64 vote.Round,
                        totalPrecommitsSigned := m.totalPrecommitsSigned + 1 } }

/-- The `if vote.Type == tmproto.PrevoteType` block of `handleSignVoteRequest`. -/
def recordPrevote {σ : Type} (env : Env) (w : World σ) (vote : Vote) : World σ :=
  let stepSize := subInt64 vote.Height w.previousPrevoteHeight
  let m := w.metrics
  let m :=
    if w.previousPrevoteHeight ≠ 0 ∧ stepSize > 1 then
      { m with missedPrevotes := m.missedPrevotes + float64 stepSize,
               totalMissedPrevotes := m.totalMissedPrevotes + float64 stepSize }
    else
      { m with missedPrevotes := 0 }
  { w with
    previousPrevoteHeight := vote.Height,
    metricsTimeKeeper := { w.metricsTimeKeeper with previousPrevote := env.now },
    metrics := { m with lastPrevoteHeight := float64 vote.Height,
                        lastPrevoteRound := float64 vote.Round,
                        totalPrevotesSigned := m.totalPrevotesSigned + 1 } }

/-- The length of the signature prefix that is logged (`sigLen`). -/
def sigLen (vote : Vote) : Nat :=
  if vote.Signature.length < 6 then vote.Signature.length else 6

/-- Go's `handleSignVoteRequest`: the response and the world it leaves, or
`none` if it panics. On the nil pointer the authority is still called; the
`BeyondBlockError` branch reads no field of the vote and answers, while the
"Failed to sign vote" line (`vote.Type`, line 168) and, after a nil error,
`len(vote.Signature)` (line 177) dereference the pointer and panic. -/
def handleSignVoteRequest {σ : Type} (env : Env) (rs : ReconnRemoteSigner σ)
    (w : World σ) (vote0 : Option Vote) : Option (Message × World σ) :=
  match vote0 with
  | some v0 =>
    match rs.privVal.SignVote w.pv rs.chainID v0 with
    | (pv1, _, some err) =>
      let w := w.called (.SignVote rs.chainID (some v0)) pv1
      let w :=
        match err with
        | .BeyondBlockError _ _ =>
          let w := w.logLine .debug "Rejecting sign vote request" []
          { w with metrics := { w.metrics with
              beyondBlockErrors := w.metrics.beyondBlockErrors + 1 } }
        | .other _ =>
          let w := w.logLine .error "Failed to sign vote" []
          { w with metrics := { w.metrics with
              failedSignVote := w.metrics.failedSignVote + 1 } }
      some (⟨some (.SignedVoteResponse {} (getRemoteSignerError (some err)))⟩, w)
    | (pv1, vote, none) =>
      let w := w.called (.SignVote rs.chainID (some v0)) pv1
      match sliceTo vote.Signature (sigLen vote) with
      | none => none
      | some sig =>
        let w := w.logLine .info "Signed vote" sig
        let w := if vote.Type_ = PrecommitType then recordPrecommit env w vote else w
        let w := if vote.Type_ = PrevoteType then recordPrevote env w vote else w
        some (⟨some (.SignedVoteResponse vote none)⟩, w)
  | none =>
    match rs.privVal.SignVoteNil w.pv rs.chainID with
    | (pv1, some (.BeyondBlockError msg text)) =>
      let w := w.called (.SignVote rs.chainID none) pv1
      let w := w.logLine .debug "Rejecting sign vote request" []
      let w := { w with metrics := { w.metrics with
        beyondBlockErrors := w.metrics.beyondBlockErrors + 1 } }
      some (⟨some (.SignedVoteResponse {}
        (getRemoteSignerError (some (.BeyondBlockError msg text))))⟩, w)
    | (_, some (.other _)) => none
    | (_, none) => none

/-- Go's `handleSignProposalRequest`: the response and the world it leaves, or
`none` if it panics. On the nil pointer the authority is still called; both
error branches read no field of the proposal and answer, while the "Signed
proposal" line (`proposal.Height`, line 240) dereferences the pointer and
panics. -/
def handleSignProposalRequest {σ : Type} (rs : ReconnRemoteSigner σ)
    (w : World σ) (proposal0 : Option Proposal) : Option (Message × World σ) :=
  match proposal0 with
  | some p0 =>
    match rs.privVal.SignProposal w.pv rs.chainID p0 with
    | (pv1, _, some err) =>
      let w := w.called (.SignProposal rs.chainID (some p0)) pv1
      let w :=
        match err with
        | .BeyondBlockError _ _ =>
          let w := w.logLine .debug "Rejecting proposal sign request" []
          { w with metrics := { w.metrics with
              beyondBlockErrors := w.metrics.beyondBlockErrors + 1 } }
        | .other _ => w.logLine .error "Failed to sign proposal" []
      some (⟨some (.SignedProposalResponse {} (getRemoteSignerError (some err)))⟩, w)
    | (pv1, proposal, none) =>
      let w := w.called (.SignProposal rs.chainID (some p0)) pv1
      let w := w.logLine .info "Signed proposal" []
      let w := { w with metrics := { w.metrics with
        lastProposalHeight := float64 proposal.Height,
        lastProposalRound := float64 proposal.Round,
        totalProposalsSigned := w.metrics.totalProposalsSigned + 1 } }
      some (⟨some (.SignedProposalResponse proposal none)⟩, w)
  | none =>
    match rs.privVal.SignProposalNil w.pv rs.chainID with
    | (pv1, some err) =>
      let w := w.called (.SignProposal rs.chainID none) pv1
      let w :=
        match err with
        | .BeyondBlockError _ _ =>
          let w := w.logLine .debug "Rejecting proposal sign request" []
          { w with metrics := { w.metrics with
              beyondBlockErrors := w.metrics.beyondBlockErrors + 1 } }
        | .other _ => w.logLine .error "Failed to sign proposal" []
      some (⟨some (.SignedProposalResponse {} (getRemoteSignerError (some err)))⟩, w)
    | (_, none) => none

/-- Go's `handlePubKeyRequest`. -/
def handlePubKeyRequest {σ : Type} (env : Env) (rs : ReconnRemoteSigner σ)
    (w : World σ) : Message × World σ :=
  let w := { w with metrics := { w.metrics with
    totalPubKeyRequests := w.metrics.totalPubKeyRequests + 1 } }
  match rs.privVal.GetPubKey w.pv with
  | (pv1, .error err) =>
    let w := w.called .GetPubKey pv1
    let w := w.logLine .error "Failed to get Pub Key" []
    (⟨some (.PubKeyResponse .empty (getRemoteSignerError (some err)))⟩, w)
  | (pv1, .ok pubKey) =>
    let w := w.called .GetPubKey pv1
    match env.PubKeyToProto pubKey with
    | .error err =>
      let w := w.logLine .error "Failed to get Pub Key" []
      (⟨some (.PubKeyResponse .empty (getRemoteSignerError (some err)))⟩, w)
    | .ok pk => (⟨some (.PubKeyResponse pk none)⟩, w)

/-- Go's `handlePingRequest`. -/
def handlePingRequest : Message := ⟨some .PingResponse⟩

/-- Go's `handleRequest`: the type switch on `req.Sum`. Lines 144 and 146 read
the vote or proposal out of the request, which panics when the request pointer
is nil, and pass it on unchecked. -/
def handleRequest {σ : Type} (env : Env) (rs : ReconnRemoteSigner σ)
    (w : World σ) (req : Message) : Option (Message × World σ) :=
  match req.Sum with
  | some (.SignVoteRequest vote _) => handleSignVoteRequest env rs w vote
  | some .SignVoteRequestNil => none
  | some (.SignProposalRequest proposal _) => handleSignProposalRequest rs w proposal
  | some .SignProposalRequestNil => none
  | some (.PubKeyRequest _) => some (handlePubKeyRequest env rs w)
  | some .PingRequest => some (handlePingRequest, w)
  | _ => some (⟨none⟩, w.logLine .error "Unknown request" [])

/-! ## The supervisor loop

`loop` is embedded as a step function. A step runs the program from one of
three places, up to the next of them or to the return:

* `head`: line 80, the top of the outer `for`;
* `connect`: line 89, one iteration of `for conn == nil`;
* `serve`: line 114, the second `IsRunning` check, the read, the dispatch and the
  write.

Each step is given the answers of the outside world that the code may ask for
while it runs: the value of `rs.IsRunning()`, and the results of the dial, the
handshake, the close, the read and the write. -/

/-- What the loop does to the outside world. -/
inductive Action where
  | Dial (address : String)
  | MakeSecretConnection
  | Sleep (seconds : Nat)
  | Close
  | ReadMsg
  | WriteMsg (res : Message)
  | Return
deriving DecidableEq

inductive LoopPoint where
  | head
  | connect
  | serve
  | returned
  | panicked
deriving DecidableEq

/-- The answers of the outside world during one step. -/
structure Answer where
  running : Bool := true
  dialErr : Option GoError := none
  secretConnErr : Option GoError := none
  closeErr : Option GoError := none
  readMsg : Except GoError Message := .ok ⟨none⟩
  writeErr : Option GoError := none
  now : Int := 0

/-- The local state of `loop` (`conn != nil` and the place reached), what it has
done so far, and the process-wide state. -/
structure LoopState (σ : Type) where
  point : LoopPoint := .head
  conn : Bool := false
  actions : List Action := []
  world : World σ

def LoopState.act {σ : Type} (st : LoopState σ) (a : Action) : LoopState σ :=
  { st with actions := st.actions ++ [a] }

def LoopState.logLine {σ : Type} (st : LoopState σ) (level : LogLevel) (msg : String) :
    LoopState σ :=
  { st with world := st.world.logLine level msg [] }

/-- Lines 82-84 and 115-117: `conn.Close()` with its error logged. -/
def closeLogged {σ : Type} (a : Answer) (st : LoopState σ) : LoopState σ :=
  let st := st.act .Close
  match a.closeErr with
  | some _ => st.logLine .error "Close"
  | none => st

/-- Lines 80-87 and the test of line 89. -/
def stepHead {σ : Type} (a : Answer) (st : LoopState σ) : LoopState σ :=
  if !a.running then
    let st := if st.conn then closeLogged a st else st
    { st.act .Return with point := .returned }
  else if st.conn then { st with point := .serve }
  else { st with point := .connect }

/-- Lines 90-110: one iteration of `for conn == nil`. -/
def stepConnect {σ : Type} (rs : ReconnRemoteSigner σ) (a : Answer)
    (st : LoopState σ) : LoopState σ :=
  let st := st.act (.Dial rs.address)
  match a.dialErr with
  | some _ =>
    let st := { st with world := { st.world with metrics := { st.world.metrics with
      sentryConnectTries := st.world.metrics.sentryConnectTries + 1,
      totalSentryConnectTries := st.world.metrics.totalSentryConnectTries + 1 } } }
    let st := st.logLine .error "Dialing"
    let st := st.logLine .info "Retrying"
    st.act (.Sleep 3)
  | none =>
    let st := { st with world := { st.world with metrics := { st.world.metrics with
      sentryConnectTries := 0 } } }
    let st := st.logLine .info "Connected to Sentry"
    let st := st.act .MakeSecretConnection
    match a.secretConnErr with
    | some _ =>
      let st := { st with conn := false }
      let st := st.logLine .error "Secret Conn"
      let st := st.logLine .info "Retrying"
      st.act (.Sleep 3)
    | none => { st with conn := true, point := .serve }

/-- Lines 114-137. -/
def stepServe {σ : Type} (conv : PubKey → Except GoError PublicKey)
    (rs : ReconnRemoteSigner σ) (a : Answer) (st : LoopState σ) : LoopState σ :=
  if !a.running then
    { (closeLogged a st).act .Return with point := .returned }
  else
    let st := st.act .ReadMsg
    match a.readMsg with
    | .error _ =>
      let st := st.logLine .error "readMsg"
      { st.act .Close with conn := false, point := .head }
    | .ok req =>
      match handleRequest { now := a.now, PubKeyToProto := conv } rs st.world req with
      | none => { st with point := .panicked }
      | some (res, w) =>
        let st := { st with world := w }
        let st := st.act (.WriteMsg res)
        match a.writeErr with
        | some _ =>
          let st := st.logLine .error "writeMsg"
          { st.act .Close with conn := false, point := .head }
        | none => { st with point := .head }

/-- One step of `loop`. -/
def stepLoop {σ : Type} (conv : PubKey → Except GoError PublicKey)
    (rs : ReconnRemoteSigner σ) (st : LoopState σ) (a : Answer) : LoopState σ :=
  match st.point with
  | .head => stepHead a st
  | .connect => stepConnect rs a st
  | .serve => stepServe conv rs a st
  | .returned => st
  | .panicked => st

/-- The loop run on the answers of the outside world, one per step. -/
def runLoop {σ : Type} (conv : PubKey → Except GoError PublicKey)
    (rs : ReconnRemoteSigner σ) (st : LoopState σ) (answers : List Answer) :
    LoopState σ :=
  answers.foldl (stepLoop conv rs) st

/-- The number of dial attempts among the actions. -/
def dialCount (actions : List Action) : Nat :=
  actions.countP fun a => match a with
    | .Dial _ => true
    | _ => false

/-! ## Start and stop -/

/-- A `tmservice.Service`: the name it was created under, the flags of its
`BaseService` and, for a `ReconnRemoteSigner`, its address. -/
structure Service where
  name : String
  address : String
  started : Bool := false
  stopped : Bool := false
deriving DecidableEq

/-- Go's `IsRunning` of `BaseService`. -/
def Service.IsRunning (s : Service) : Bool := s.started && !s.stopped

/-- The goroutines started so far: the number of `go StartMetrics()` and the
addresses whose `go rs.loop()` is running. -/
structure Runtime where
  StartMetrics : Nat := 0
  loops : List String := []
deriving DecidableEq

/-- Go's `NewReconnRemoteSigner` (the ephemeral key is not kept). -/
def NewReconnRemoteSigner (address : String) : Service :=
  { name := "RemoteSigner", address := address }

/-- Go's `OnStart`: starts the loop and returns `nil`. -/
def OnStart (s : Service) (rt : Runtime) : Runtime × Option GoError :=
  ({ rt with loops := rt.loops ++ [s.address] }, none)

/-- Go's `OnStop`. -/
def OnStop {σ : Type} (privVal : PrivValidator σ) (w : World σ) : World σ :=
  w.called .Stop (privVal.Stop w.pv)

/-- The method `Start` of `BaseService` on a `ReconnRemoteSigner`: unless the
service library refuses (`refusal`, its error), it marks the service started and
runs `OnStart`. -/
def Service.Start (refusal : Option GoError) (s : Service) (rt : Runtime) :
    Service × Runtime × Option GoError :=
  match refusal with
  | some e => (s, rt, some e)
  | none =>
    match OnStart s rt with
    | (rt, some e) => (s, rt, some e)
    | (rt, none) => ({ s with started := true }, rt, none)

/-- The method `Stop` of `BaseService` on a `ReconnRemoteSigner`: a service
that is started and not yet stopped is marked stopped and runs `OnStop`. -/
def Service.Stop {σ : Type} (privVal : PrivValidator σ) (s : Service) (w : World σ) :
    Service × World σ × Option GoError :=
  if s.stopped then (s, w, some (.other "already stopped"))
  else if !s.started then (s, w, some (.other "not started"))
  else ({ s with stopped := true }, OnStop privVal w, none)

/-- The `for _, node := range nodes` of `StartRemoteSigners`; `err` is the
variable declared at line 286. -/
def startNodes (refusal : String → Option GoError) :
    Runtime → List Service → Option GoError → List String →
      Runtime × List Service × Option GoError
  | rt, services, err, [] => (rt, services, err)
  | rt, services, _, node :: nodes =>
    let s := NewReconnRemoteSigner node
    match s.Start (refusal node) rt with
    | (_, rt, some e) => (rt, [], some e)
    | (s, rt, none) => startNodes refusal rt (services ++ [s]) none nodes

/-- Go's `StartRemoteSigners`; `refusal node` is the error, if any, with which
the service library refuses to start the supervisor of `node`. A `nil` slice is
the empty list. -/
def StartRemoteSigners (refusal : String → Option GoError) (rt : Runtime)
    (services : List Service) (nodes : List String) :
    Runtime × List Service × Option GoError :=
  let rt := { rt with StartMetrics := rt.StartMetrics + 1 }
  startNodes refusal rt services none nodes

/-- Stops the services of a list one after the other. -/
def stopAll {σ : Type} (privVal : PrivValidator σ) :
    List Service → World σ → List Service × World σ
  | [], w => ([], w)
  | s :: rest, w =>
    match s.Stop privVal w with
    | (s, w, _) =>
      let (rest, w) := stopAll privVal rest w
      (s :: rest, w)

/-- The number of calls of the authority's `Stop` among the calls made. -/
def stopCount (calls : List PvCall) : Nat := calls.count .Stop

/-! ## Observations used in the statements -/

/-- The vote as the authority leaves it when the request is a `SignVoteRequest`
that the authority signs without error; `none` for every other dispatch. -/
def signedVote {σ : Type} (rs : ReconnRemoteSigner σ) (w : World σ) (req : Message) :
    Option Vote :=
  match req.Sum with
  | some (.SignVoteRequest (some vote) _) =>
    match rs.privVal.SignVote w.pv rs.chainID vote with
    | (_, v, none) => some v
    | (_, _, some _) => none
  | _ => none

/-- The world left by a successful `SignVote` dispatch. -/
def afterSignedVote {σ : Type} (env : Env) (rs : ReconnRemoteSigner σ) (w : World σ)
    (vote0 vote : Vote) (pv1 : σ) : World σ :=
  let w := w.called (.SignVote rs.chainID (some vote0)) pv1
  let w := w.logLine .info "Signed vote" (vote.Signature.take (sigLen vote))
  let w := if vote.Type_ = PrecommitType then recordPrecommit env w vote else w
  if vote.Type_ = PrevoteType then recordPrevote env w vote else w

/-- The world left by a failed `SignVote` dispatch. -/
def afterFailedVote {σ : Type} (rs : ReconnRemoteSigner σ) (w : World σ)
    (vote0 : Vote) (pv1 : σ) (err : GoError) : World σ :=
  let w := w.called (.SignVote rs.chainID (some vote0)) pv1
  match err with
  | .BeyondBlockError _ _ =>
    let w := w.logLine .debug "Rejecting sign vote request" []
    { w with metrics := { w.metrics with
        beyondBlockErrors := w.metrics.beyondBlockErrors + 1 } }
  | .other _ =>
    let w := w.logLine .error "Failed to sign vote" []
    { w with metrics := { w.metrics with
        failedSignVote := w.metrics.failedSignVote + 1 } }

/-- Whether the request carries what its handler dereferences: false for a
`SignVoteRequest` with a nil vote or a nil request pointer and for a
`SignProposalRequest` with a nil proposal or a nil request pointer, true for
every other message. -/
def carriesPayload (req : Message) : Bool :=
  match req.Sum with
  | some (.SignVoteRequest none _) => false
  | some .SignVoteRequestNil => false
  | some (.SignProposalRequest none _) => false
  | some .SignProposalRequestNil => false
  | _ => true

/-- Whether the dispatch of the request panics, told from the request and from
what the authority answers on the nil pointer: a nil request pointer; a nil
vote unless the authority answers a `BeyondBlockError`; a nil proposal when the
authority answers nil. -/
def dispatchPanics {σ : Type} (rs : ReconnRemoteSigner σ) (w : World σ) (req : Message) :
    Bool :=
  match req.Sum with
  | some (.SignVoteRequest none _) =>
    match (rs.privVal.SignVoteNil w.pv rs.chainID).2 with
    | some (.BeyondBlockError _ _) => false
    | _ => true
  | some .SignVoteRequestNil => true
  | some (.SignProposalRequest none _) =>
    (rs.privVal.SignProposalNil w.pv rs.chainID).2.isNone
  | some .SignProposalRequestNil => true
  | _ => false

/-- The response of a dispatch, if it returns. -/
def responseOf {σ : Type} (r : Option (Message × World σ)) : Option Message :=
  r.map fun x => x.1

/-- A supervisor as `StartRemoteSigners` leaves it when its start succeeds. -/
def startedSupervisor (node : String) : Service :=
  { NewReconnRemoteSigner node with started := true }

/-- The connection-attempts gauge after a run of connect iterations, told from
the answers alone: a failed dial adds one, a dial that succeeds sets zero
(whatever the handshake then does). -/
def connectTriesAfter (tries : Int) (answers : List Answer) : Int :=
  answers.foldl (fun c a => if a.dialErr.isSome then c + 1 else 0) tries

/-- The actions of `n` failed dials in a row: a dial, then the retry sleep of
three seconds, `n` times. -/
def retryTrace (address : String) : Nat → List Action
  | 0 => []
  | n + 1 => .Dial address :: .Sleep 3 :: retryTrace address n

/-- The lengths, in seconds, of the sleeps among the actions, in order. -/
def sleeps (actions : List Action) : List Nat :=
  actions.filterMap fun a => match a with
    | .Sleep seconds => some seconds
    | _ => none

/-- The answers of the outside world when the service is running, the dial
fails with `e` `n` times in a row and then the dial and the handshake succeed. -/
def failedDialsThenSuccess (e : GoError) (n : Nat) : List Answer :=
  [{ running := true }] ++ List.replicate n { dialErr := some e } ++ [{ running := true }]

/-- Whether the request is of one of the four variants that `handleRequest`
knows. -/
def isKnownRequest (req : Message) : Bool :=
  match req.Sum with
  | some (.SignVoteRequest _ _) => true
  | some .SignVoteRequestNil => true
  | some (.SignProposalRequest _ _) => true
  | some .SignProposalRequestNil => true
  | some (.PubKeyRequest _) => true
  | some .PingRequest => true
  | _ => false

/-- How a since-start total follows the streak counter of its kind over one
call (values before: `total0`, `streak0`; after: `total1`, `streak1`): the total
does not decrease; it increases exactly when the streak counter increases, and
then by the same amount; when the streak counter does not increase (it is reset
to 0, or untouched) the total is unchanged. -/
def totalTracksStreak (total0 total1 streak0 streak1 : Int) : Prop :=
  total0 ≤ total1 ∧ (total0 < total1 ↔ streak0 < streak1) ∧
    (streak0 < streak1 → total1 - total0 = streak1 - streak0) ∧
    (streak1 ≤ streak0 → total1 = total0)

/-- The four missed-vote cells over one call, as the code can move them: all
unchanged; or one kind's streak and total raised by the same step above 1; or
one kind's streak set to 0 with its total unchanged; the other kind untouched in
each case. -/
def missedCellsMove (m m1 : Metrics) : Prop :=
  (m1.missedPrecommits = m.missedPrecommits ∧
    m1.totalMissedPrecommits = m.totalMissedPrecommits ∧
    m1.missedPrevotes = m.missedPrevotes ∧
    m1.totalMissedPrevotes = m.totalMissedPrevotes) ∨
  (∃ step : Int, 1 < step ∧
    m1.missedPrecommits = m.missedPrecommits + step ∧
    m1.totalMissedPrecommits = m.totalMissedPrecommits + step ∧
    m1.missedPrevotes = m.missedPrevotes ∧
    m1.totalMissedPrevotes = m.totalMissedPrevotes) ∨
  (m1.missedPrecommits = 0 ∧
    m1.totalMissedPrecommits = m.totalMissedPrecommits ∧
    m1.missedPrevotes = m.missedPrevotes ∧
    m1.totalMissedPrevotes = m.totalMissedPrevotes) ∨
  (∃ step : Int, 1 < step ∧
    m1.missedPrevotes = m.missedPrevotes + step ∧
    m1.totalMissedPrevotes = m.totalMissedPrevotes + step ∧
    m1.missedPrecommits = m.missedPrecommits ∧
    m1.totalMissedPrecommits = m.totalMissedPrecommits) ∨
  (m1.missedPrevotes = 0 ∧
    m1.totalMissedPrevotes = m.totalMissedPrevotes ∧
    m1.missedPrecommits = m.missedPrecommits ∧
    m1.totalMissedPrecommits = m.totalMissedPrecommits)

/-! ## Sample collaborators for the concrete instances -/

/-- An authority that signs with an eight-byte signature, or fails with the
given error (on the nil pointer it returns the same error, or nil); its state
counts the calls. -/
def sampleAuthority (signErr : Option GoError) (key : Except GoError PubKey) :
    PrivValidator Nat where
  SignVote := fun n _ v =>
    match signErr with
    | some e => (n + 1, v, some e)
    | none => (n + 1, { v with Signature := [1, 2, 3, 4, 5, 6, 7, 8] }, none)
  SignVoteNil := fun n _ => (n + 1, signErr)
  SignProposal := fun n _ p =>
    match signErr with
    | some e => (n + 1, p, some e)
    | none => (n + 1, { p with Signature := [1, 2, 3, 4, 5, 6, 7, 8] }, none)
  SignProposalNil := fun n _ => (n + 1, signErr)
  GetPubKey := fun n => (n + 1, key)
  Stop := fun n => n + 1

def sampleKey : PubKey := { keyType := "ed25519", key := [7, 7, 7] }

/-- A conversion that accepts ed25519 keys only. -/
def sampleConv (k : PubKey) : Except GoError PublicKey :=
  if k.keyType = "ed25519" then .ok (.Ed25519 k.key) else .error (.other "unsupported key")

def sampleEnv : Env := { now := 1000, PubKeyToProto := sampleConv }

def sampleSigner (signErr : Option GoError) (key : Except GoError PubKey) :
    ReconnRemoteSigner Nat :=
  { chainID := "chain", address := "tcp://sentry:1234",
    privVal := sampleAuthority signErr key }

/-- A world in which a prevote and a precommit were last signed at height 10. -/
def sampleWorld : World Nat :=
  { previousPrecommitHeight := 10, previousPrevoteHeight := 10, pv := 0 }

/-- An authority that reports success and leaves the vote and the proposal as
they came (so the signature has whatever length the request gave it). -/
def echoAuthority : PrivValidator Nat where
  SignVote := fun n _ v => (n + 1, v, none)
  SignVoteNil := fun n _ => (n + 1, none)
  SignProposal := fun n _ p => (n + 1, p, none)
  SignProposalNil := fun n _ => (n + 1, none)
  GetPubKey := fun n => (n + 1, .ok sampleKey)
  Stop := fun n => n + 1

def echoSigner : ReconnRemoteSigner Nat :=
  { chainID := "chain", address := "tcp://sentry:1234", privVal := echoAuthority }

/-- A world with other recorded heights and counters than `sampleWorld`, and
the same authority state. -/
def otherWorld : World Nat :=
  { previousPrecommitHeight := 99, previousPrevoteHeight := 3,
    metrics := { missedPrecommits := 5, totalMissedPrevotes := 8, failedSignVote := 2 },
    pv := 0 }

/-! # Theorems -/

/-! ## Lemmas on the conversion to `float64` -/

theorem pow_excessBits_le (fuel n : Nat) (h : 1 ≤ n) : 2 ^ excessBits fuel n ≤ n := by
  induction fuel generalizing n with
  | zero => simpa [excessBits] using h
  | succ fuel ih =>
    unfold excessBits
    split
    · simpa using h
    · rename_i hn
      have h2 : 1 ≤ n / 2 := by
        have : (2 : Nat) ^ 53 ≤ n := Nat.le_of_not_lt hn
        omega
      have := ih (n / 2) h2
      rw [pow_succ]
      omega

theorem excessBits_small (fuel n : Nat) (h : n < 2 ^ 53) : excessBits fuel n = 0 := by
  cases fuel with
  | zero => rfl
  | succ fuel =>
    unfold excessBits
    rw [if_pos h]

theorem roundToEven_zero (n : Nat) : roundToEven n 0 = n := by
  simp [roundToEven, Nat.mod_one]

/-- The conversion is exact below `2 ^ 53` in magnitude. -/
theorem float64_exact (x : Int) (h : x.natAbs < 2 ^ 53) : float64 x = x := by
  unfold float64
  rw [excessBits_small _ _ h, roundToEven_zero]
  exact Int.sign_mul_natAbs x

theorem le_roundToEven (n e : Nat) (h : 2 ^ e ≤ n) : 2 ^ e ≤ roundToEven n e := by
  have hq : 1 ≤ n / 2 ^ e := (Nat.one_le_div_iff (by positivity)).2 h
  unfold roundToEven
  dsimp only
  split
  · calc 2 ^ e = 1 * 2 ^ e := (Nat.one_mul _).symm
      _ ≤ (n / 2 ^ e + 1) * 2 ^ e := Nat.mul_le_mul_right _ (by omega)
  · calc 2 ^ e = 1 * 2 ^ e := (Nat.one_mul _).symm
      _ ≤ (n / 2 ^ e) * 2 ^ e := Nat.mul_le_mul_right _ hq

/-- The conversion of a value above 1 is above 1. -/
theorem one_lt_float64 (x : Int) (h : 1 < x) : 1 < float64 x := by
  by_cases hs : x.natAbs < 2 ^ 53
  · rw [float64_exact x hs]; exact h
  · have hn : (2 : Nat) ^ 53 ≤ x.natAbs := Nat.le_of_not_lt hs
    have h1 : 1 ≤ x.natAbs := le_trans (by norm_num) hn
    have hpow := pow_excessBits_le x.natAbs x.natAbs h1
    have hle := le_roundToEven x.natAbs _ hpow
    have hsign : x.sign = 1 := Int.sign_eq_one_of_pos (by omega)
    unfold float64
    rw [hsign, one_mul]
    have hr : 2 ≤ roundToEven x.natAbs (excessBits x.natAbs x.natAbs) := by
      rcases Nat.eq_zero_or_pos (excessBits x.natAbs x.natAbs) with h0 | hpos
      · rw [h0, roundToEven_zero]
        exact le_trans (by norm_num) hn
      · have h2 : 2 ^ 1 ≤ 2 ^ excessBits x.natAbs x.natAbs :=
          Nat.pow_le_pow_right (by norm_num) hpos
        omega
    omega

/-! ## Lemmas on the vote handler -/

theorem sliceTo_sigLen (vote : Vote) :
    sliceTo vote.Signature (sigLen vote) = some (vote.Signature.take (sigLen vote)) := by
  unfold sliceTo sigLen
  split <;> simp
  omega

theorem handleSignVoteRequest_signed {σ : Type} (env : Env) (rs : ReconnRemoteSigner σ)
    (w : World σ) (vote0 vote : Vote) (pv1 : σ)
    (h : rs.privVal.SignVote w.pv rs.chainID vote0 = (pv1, vote, none)) :
    handleSignVoteRequest env rs w (some vote0) =
      some (⟨some (.SignedVoteResponse vote none)⟩, afterSignedVote env rs w vote0 vote pv1) := by
  simp only [handleSignVoteRequest]
  rw [h]
  simp only [sliceTo_sigLen]
  rfl

theorem handleSignVoteRequest_failed {σ : Type} (env : Env) (rs : ReconnRemoteSigner σ)
    (w : World σ) (vote0 vote : Vote) (pv1 : σ) (err : GoError)
    (h : rs.privVal.SignVote w.pv rs.chainID vote0 = (pv1, vote, some err)) :
    handleSignVoteRequest env rs w (some vote0) =
      some (⟨some (.SignedVoteResponse {} (some { Code := 0, Description := err.Error }))⟩,
        afterFailedVote rs w vote0 pv1 err) := by
  simp only [handleSignVoteRequest]
  rw [h]
  cases err <;> rfl

theorem precommit_ne_prevote : PrecommitType ≠ PrevoteType := by decide

theorem afterSignedVote_precommit {σ : Type} (env : Env) (rs : ReconnRemoteSigner σ)
    (w : World σ) (vote0 vote : Vote) (pv1 : σ) (ht : vote.Type_ = PrecommitType) :
    afterSignedVote env rs w vote0 vote pv1 =
      recordPrecommit env
        ((w.called (.SignVote rs.chainID vote0) pv1).logLine .info "Signed vote"
          (vote.Signature.take (sigLen vote))) vote := by
  have hne : ¬ vote.Type_ = PrevoteType := by
    rw [ht]; exact precommit_ne_prevote
  simp only [afterSignedVote, if_pos ht, if_neg hne]

theorem afterSignedVote_prevote {σ : Type} (env : Env) (rs : ReconnRemoteSigner σ)
    (w : World σ) (vote0 vote : Vote) (pv1 : σ) (ht : vote.Type_ = PrevoteType) :
    afterSignedVote env rs w vote0 vote pv1 =
      recordPrevote env
        ((w.called (.SignVote rs.chainID vote0) pv1).logLine .info "Signed vote"
          (vote.Signature.take (sigLen vote))) vote := by
  have hne : ¬ vote.Type_ = PrecommitType := by
    rw [ht]; exact fun h => precommit_ne_prevote h.symm
  simp only [afterSignedVote, if_pos ht, if_neg hne]

theorem afterSignedVote_other {σ : Type} (env : Env) (rs : ReconnRemoteSigner σ)
    (w : World σ) (vote0 vote : Vote) (pv1 : σ)
    (h1 : vote.Type_ ≠ PrecommitType) (h2 : vote.Type_ ≠ PrevoteType) :
    afterSignedVote env rs w vote0 vote pv1 =
      (w.called (.SignVote rs.chainID vote0) pv1).logLine .info "Signed vote"
        (vote.Signature.take (sigLen vote)) := by
  simp only [afterSignedVote, if_neg h1, if_neg h2]

/-! ## C1: height-gap detection -/

/-- The rule the code follows on a signed vote: when the last recorded height of
the vote's kind is `H` and the vote's height is `H + k` (`k` within 64 bits),
the missed counter of that kind increases by `float64(k)`, which is `k` itself
below `2 ^ 53`, if a prior height is recorded (`H ≠ 0`) and `k > 1`, and is
reset to 0 if `k ≤ 1` or no prior height is recorded. -/
theorem missed_counter_on_signed_vote {σ : Type} (env : Env) (rs : ReconnRemoteSigner σ)
    (w : World σ) (vote0 vote : Vote) (pv1 : σ) (k : Int)
    (hsign : rs.privVal.SignVote w.pv rs.chainID vote0 = (pv1, vote, none))
    (hlo : -(2 ^ 63) ≤ k) (hhi : k < 2 ^ 63) :
    ∃ res w1, handleSignVoteRequest env rs w (some vote0) = some (res, w1) ∧
      (-(2 ^ 53) < k ∧ k < 2 ^ 53 → float64 k = k) ∧
      (vote.Type_ = PrecommitType → vote.Height = w.previousPrecommitHeight + k →
        (w.previousPrecommitHeight ≠ 0 ∧ 1 < k →
          w1.metrics.missedPrecommits = w.metrics.missedPrecommits + float64 k) ∧
        (w.previousPrecommitHeight = 0 ∨ k ≤ 1 → w1.metrics.missedPrecommits = 0)) ∧
      (vote.Type_ = PrevoteType → vote.Height = w.previousPrevoteHeight + k →
        (w.previousPrevoteHeight ≠ 0 ∧ 1 < k →
          w1.metrics.missedPrevotes = w.metrics.missedPrevotes + float64 k) ∧
        (w.previousPrevoteHeight = 0 ∨ k ≤ 1 → w1.metrics.missedPrevotes = 0)) := by
  have hwrap : wrapInt64 k = k := by
    unfold wrapInt64
    omega
  refine ⟨_, _, handleSignVoteRequest_signed env rs w vote0 vote pv1 hsign, ?_, ?_, ?_⟩
  · intro h53
    exact float64_exact k (by omega)
  · intro ht hh
    rw [afterSignedVote_precommit env rs w vote0 vote pv1 ht]
    constructor
    · rintro ⟨h0, hk⟩
      simp [recordPrecommit, World.called, World.logLine, h0, subInt64, hh, hwrap, hk]
    · intro h
      have hno : ¬ (w.previousPrecommitHeight ≠ 0 ∧ k > 1) := by
        rintro ⟨h0, hk⟩
        rcases h with h | h
        · exact h0 h
        · omega
      simp [recordPrecommit, World.called, World.logLine, subInt64, hh, hwrap, hno]
  · intro ht hh
    rw [afterSignedVote_prevote env rs w vote0 vote pv1 ht]
    constructor
    · rintro ⟨h0, hk⟩
      simp [recordPrevote, World.called, World.logLine, h0, subInt64, hh, hwrap, hk]
    · intro h
      have hno : ¬ (w.previousPrevoteHeight ≠ 0 ∧ k > 1) := by
        rintro ⟨h0, hk⟩
        rcases h with h | h
        · exact h0 h
        · omega
      simp [recordPrevote, World.called, World.logLine, subInt64, hh, hwrap, hno]

/-- The rule at concrete inputs: last precommit at height 10, a precommit signed
at height 12 (`k = 2`). -/
theorem missed_counter_on_signed_vote_witness :
    ∃ res w1,
      handleSignVoteRequest sampleEnv (sampleSigner none (.ok sampleKey)) sampleWorld
        (some { Type_ := PrecommitType, Height := 12 }) = some (res, w1) ∧
      (-(2 ^ 53) < (2 : Int) ∧ (2 : Int) < 2 ^ 53 → float64 2 = 2) ∧
      (PrecommitType = PrecommitType →
        (12 : Int) = sampleWorld.previousPrecommitHeight + 2 →
        (sampleWorld.previousPrecommitHeight ≠ 0 ∧ (1 : Int) < 2 →
          w1.metrics.missedPrecommits = sampleWorld.metrics.missedPrecommits + float64 2) ∧
        (sampleWorld.previousPrecommitHeight = 0 ∨ (2 : Int) ≤ 1 →
          w1.metrics.missedPrecommits = 0)) ∧
      (PrecommitType = PrevoteType →
        (12 : Int) = sampleWorld.previousPrevoteHeight + 2 →
        (sampleWorld.previousPrevoteHeight ≠ 0 ∧ (1 : Int) < 2 →
          w1.metrics.missedPrevotes = sampleWorld.metrics.missedPrevotes + float64 2) ∧
        (sampleWorld.previousPrevoteHeight = 0 ∨ (2 : Int) ≤ 1 →
          w1.metrics.missedPrevotes = 0)) :=
  missed_counter_on_signed_vote sampleEnv (sampleSigner none (.ok sampleKey)) sampleWorld
    { Type_ := PrecommitType, Height := 12 }
    { Type_ := PrecommitType, Height := 12, Signature := [1, 2, 3, 4, 5, 6, 7, 8] } 1 2
    rfl (by decide) (by decide)

/-- C1 at the failing input: with the last precommit (and the last prevote)
recorded at height 10 and the missed counters at 0, a precommit (a prevote)
signed at height 12, one height skipped (`k = 2`), leaves the missed counter of
its kind at 2, where the claim has `k - 1 = 1`. -/
theorem missed_counter_gap_two_adds_two :
    sampleWorld.previousPrecommitHeight = 10 ∧ sampleWorld.metrics.missedPrecommits = 0 ∧
    (handleSignVoteRequest sampleEnv (sampleSigner none (.ok sampleKey)) sampleWorld
      (some { Type_ := PrecommitType, Height := 12 })).map
        (fun r => r.2.metrics.missedPrecommits) = some 2 ∧
    sampleWorld.previousPrevoteHeight = 10 ∧ sampleWorld.metrics.missedPrevotes = 0 ∧
    (handleSignVoteRequest sampleEnv (sampleSigner none (.ok sampleKey)) sampleWorld
      (some { Type_ := PrevoteType, Height := 12 })).map
        (fun r => r.2.metrics.missedPrevotes) = some 2 := by
  decide

/-! ## C2: the response has the variant of the request -/

/-- For every world, every authority and each of the four known request
variants whose vote or proposal pointer is not nil, `handleRequest` returns (no
panic) a message whose payload is set and is of the matching variant: a
`SignVoteRequest` gives a `SignedVoteResponse`, a `SignProposalRequest` a
`SignedProposalResponse`, a `PubKeyRequest` a `PubKeyResponse` and a
`PingRequest` a `PingResponse`, whether the authority succeeds or fails. -/
theorem handleRequest_matching_variant {σ : Type} (env : Env) (rs : ReconnRemoteSigner σ)
    (w : World σ) :
    (∀ vote c, ∃ v e w1, handleRequest env rs w ⟨some (.SignVoteRequest (some vote) c)⟩ =
        some (⟨some (.SignedVoteResponse v e)⟩, w1)) ∧
    (∀ proposal c, ∃ p e w1,
      handleRequest env rs w ⟨some (.SignProposalRequest (some proposal) c)⟩ =
        some (⟨some (.SignedProposalResponse p e)⟩, w1)) ∧
    (∀ c, ∃ pk e w1, handleRequest env rs w ⟨some (.PubKeyRequest c)⟩ =
        some (⟨some (.PubKeyResponse pk e)⟩, w1)) ∧
    (∃ w1, handleRequest env rs w ⟨some .PingRequest⟩ = some (⟨some .PingResponse⟩, w1)) := by
  refine ⟨?_, ?_, ?_, ?_⟩
  · intro vote c
    rcases h : rs.privVal.SignVote w.pv rs.chainID vote with ⟨pv1, v, _ | err⟩
    · exact ⟨v, none, _, handleSignVoteRequest_signed env rs w vote v pv1 h⟩
    · exact ⟨{}, _, _, handleSignVoteRequest_failed env rs w vote v pv1 err h⟩
  · intro proposal c
    simp only [handleRequest, handleSignProposalRequest]
    rcases rs.privVal.SignProposal w.pv rs.chainID proposal with ⟨pv1, p, _ | err⟩
    · exact ⟨p, none, _, rfl⟩
    · exact ⟨{}, _, _, rfl⟩
  · intro c
    simp only [handleRequest, handlePubKeyRequest]
    rcases rs.privVal.GetPubKey w.pv with ⟨pv1, err | key⟩
    · exact ⟨.empty, _, _, rfl⟩
    · dsimp only
      rcases env.PubKeyToProto key with err | pk
      · exact ⟨.empty, _, _, rfl⟩
      · exact ⟨pk, none, _, rfl⟩
  · exact ⟨w, rfl⟩

/-- What `handleSignVoteRequest` does on the nil pointer, by the answer of the
authority: a `BeyondBlockError` is answered (and counted), every other error and
the nil error end in a panic. -/
theorem handleSignVoteRequest_nil {σ : Type} (env : Env) (rs : ReconnRemoteSigner σ)
    (w : World σ) (pv1 : σ) :
    (∀ msg text, rs.privVal.SignVoteNil w.pv rs.chainID =
        (pv1, some (.BeyondBlockError msg text)) →
      ∃ w1, handleSignVoteRequest env rs w none =
        some (⟨some (.SignedVoteResponse {} (some { Code := 0, Description := text }))⟩, w1) ∧
        w1.metrics.beyondBlockErrors = w.metrics.beyondBlockErrors + 1 ∧
        w1.metrics.failedSignVote = w.metrics.failedSignVote) ∧
    (∀ text, rs.privVal.SignVoteNil w.pv rs.chainID = (pv1, some (.other text)) →
      handleSignVoteRequest env rs w none = none) ∧
    (rs.privVal.SignVoteNil w.pv rs.chainID = (pv1, none) →
      handleSignVoteRequest env rs w none = none) := by
  refine ⟨?_, ?_, ?_⟩
  · intro msg text h
    simp only [handleSignVoteRequest, h]
    exact ⟨_, rfl, rfl, rfl⟩
  · intro text h
    simp only [handleSignVoteRequest, h]
  · intro h
    simp only [handleSignVoteRequest, h]

/-- C2 at the failing inputs: a `SignVoteRequest` whose vote pointer is nil, with
an authority that returns an error other than `BeyondBlockError`, and with an
authority that returns nil; a `SignProposalRequest` whose proposal pointer is
nil with an authority that returns nil; and the two requests whose request
pointer is nil. In each case `handleRequest` panics: no response of any variant
is returned. -/
theorem handleRequest_panics_on_nil_pointer :
    handleRequest sampleEnv (sampleSigner (some (.other "no quorum")) (.ok sampleKey))
      sampleWorld ⟨some (.SignVoteRequest none "chain")⟩ = none ∧
    handleRequest sampleEnv (sampleSigner none (.ok sampleKey))
      sampleWorld ⟨some (.SignVoteRequest none "chain")⟩ = none ∧
    handleRequest sampleEnv (sampleSigner none (.ok sampleKey))
      sampleWorld ⟨some (.SignProposalRequest none "chain")⟩ = none ∧
    handleRequest sampleEnv (sampleSigner none (.ok sampleKey))
      sampleWorld ⟨some .SignVoteRequestNil⟩ = none ∧
    handleRequest sampleEnv (sampleSigner none (.ok sampleKey))
      sampleWorld ⟨some .SignProposalRequestNil⟩ = none :=
  ⟨rfl, rfl, rfl, rfl, rfl⟩

/-! ## C3: classification of signing errors -/

/-- Every request that carries what its handler dereferences is answered:
`handleRequest` returns. -/
theorem handleRequest_returns {σ : Type} (env : Env) (rs : ReconnRemoteSigner σ)
    (w : World σ) (req : Message) (hreq : carriesPayload req = true) :
    ∃ res w1, handleRequest env rs w req = some (res, w1) := by
  rcases req with ⟨_ | sum⟩
  · exact ⟨_, _, rfl⟩
  · cases sum with
    | SignVoteRequest vote c =>
      cases vote with
      | none => simp [carriesPayload] at hreq
      | some vote =>
        rcases h : rs.privVal.SignVote w.pv rs.chainID vote with ⟨pv1, v, _ | err⟩
        · exact ⟨_, _, handleSignVoteRequest_signed env rs w vote v pv1 h⟩
        · exact ⟨_, _, handleSignVoteRequest_failed env rs w vote v pv1 err h⟩
    | SignProposalRequest proposal c =>
      cases proposal with
      | none => simp [carriesPayload] at hreq
      | some proposal =>
        simp only [handleRequest, handleSignProposalRequest]
        rcases rs.privVal.SignProposal w.pv rs.chainID proposal with ⟨pv1, p, _ | err⟩
        · exact ⟨_, _, rfl⟩
        · exact ⟨_, _, rfl⟩
    | PubKeyRequest c =>
      simp only [handleRequest, handlePubKeyRequest]
      rcases rs.privVal.GetPubKey w.pv with ⟨pv1, err | key⟩
      · exact ⟨_, _, rfl⟩
      · dsimp only
        rcases env.PubKeyToProto key with err | pk <;> exact ⟨_, _, rfl⟩
    | SignVoteRequestNil => simp [carriesPayload] at hreq
    | SignProposalRequestNil => simp [carriesPayload] at hreq
    | PingRequest => exact ⟨_, _, rfl⟩
    | PubKeyResponse pk e => exact ⟨_, _, rfl⟩
    | SignedVoteResponse v e => exact ⟨_, _, rfl⟩
    | SignedProposalResponse p e => exact ⟨_, _, rfl⟩
    | PingResponse => exact ⟨_, _, rfl⟩

/-- `handleRequest` panics exactly on the requests of `dispatchPanics`. -/
theorem handleRequest_eq_none_iff {σ : Type} (env : Env) (rs : ReconnRemoteSigner σ)
    (w : World σ) (req : Message) :
    handleRequest env rs w req = none ↔ dispatchPanics rs w req = true := by
  by_cases hreq : carriesPayload req = true
  · obtain ⟨res, w1, h⟩ := handleRequest_returns env rs w req hreq
    rw [h]
    rcases req with ⟨_ | sum⟩
    · simp [dispatchPanics]
    · cases sum with
      | SignVoteRequest vote c =>
        cases vote with
        | none => simp [carriesPayload] at hreq
        | some vote => simp [dispatchPanics]
      | SignProposalRequest proposal c =>
        cases proposal with
        | none => simp [carriesPayload] at hreq
        | some proposal => simp [dispatchPanics]
      | SignVoteRequestNil => simp [carriesPayload] at hreq
      | SignProposalRequestNil => simp [carriesPayload] at hreq
      | PubKeyRequest c => simp [dispatchPanics]
      | PingRequest => simp [dispatchPanics]
      | PubKeyResponse pk e => simp [dispatchPanics]
      | SignedVoteResponse v e => simp [dispatchPanics]
      | SignedProposalResponse p e => simp [dispatchPanics]
      | PingResponse => simp [dispatchPanics]
  · rcases req with ⟨_ | sum⟩
    · simp [carriesPayload] at hreq
    · cases sum with
      | SignVoteRequest vote c =>
        cases vote with
        | some vote => simp [carriesPayload] at hreq
        | none =>
          simp only [handleRequest, handleSignVoteRequest, dispatchPanics]
          rcases rs.privVal.SignVoteNil w.pv rs.chainID with ⟨pv1, _ | err⟩
          · simp
          · cases err <;> simp
      | SignProposalRequest proposal c =>
        cases proposal with
        | some proposal => simp [carriesPayload] at hreq
        | none =>
          simp only [handleRequest, handleSignProposalRequest, dispatchPanics]
          rcases rs.privVal.SignProposalNil w.pv rs.chainID with ⟨pv1, _ | err⟩ <;> simp
      | SignVoteRequestNil => simp [handleRequest, dispatchPanics]
      | SignProposalRequestNil => simp [handleRequest, dispatchPanics]
      | PubKeyRequest c => simp [carriesPayload] at hreq
      | PingRequest => simp [carriesPayload] at hreq
      | PubKeyResponse pk e => simp [carriesPayload] at hreq
      | SignedVoteResponse v e => simp [carriesPayload] at hreq
      | SignedProposalResponse p e => simp [carriesPayload] at hreq
      | PingResponse => simp [carriesPayload] at hreq

/-- A dispatch that returns either signed a vote, and then leaves the world of
`afterSignedVote`, or signed no vote, and then leaves the recorded heights and
the four missed-vote cells as they were. -/
theorem handleRequest_effect {σ : Type} (env : Env) (rs : ReconnRemoteSigner σ)
    (w : World σ) (req : Message) (res : Message) (w1 : World σ)
    (h : handleRequest env rs w req = some (res, w1)) :
    (∃ vote0 vote pv1, signedVote rs w req = some vote ∧
      rs.privVal.SignVote w.pv rs.chainID vote0 = (pv1, vote, none) ∧
      w1 = afterSignedVote env rs w vote0 vote pv1) ∨
    (signedVote rs w req = none ∧
      w1.previousPrecommitHeight = w.previousPrecommitHeight ∧
      w1.previousPrevoteHeight = w.previousPrevoteHeight ∧
      w1.metrics.missedPrecommits = w.metrics.missedPrecommits ∧
      w1.metrics.totalMissedPrecommits = w.metrics.totalMissedPrecommits ∧
      w1.metrics.missedPrevotes = w.metrics.missedPrevotes ∧
      w1.metrics.totalMissedPrevotes = w.metrics.totalMissedPrevotes) := by
  rcases req with ⟨_ | sum⟩
  · cases h
    exact Or.inr ⟨rfl, rfl, rfl, rfl, rfl, rfl, rfl⟩
  · cases sum with
    | SignVoteRequest vote c =>
      cases vote with
      | none =>
        simp only [handleRequest, handleSignVoteRequest] at h
        rcases hs : rs.privVal.SignVoteNil w.pv rs.chainID with ⟨pv1, _ | err⟩
        · rw [hs] at h
          cases h
        · rw [hs] at h
          cases err with
          | BeyondBlockError msg text =>
            cases h
            exact Or.inr ⟨rfl, rfl, rfl, rfl, rfl, rfl, rfl⟩
          | other text => cases h
      | some vote =>
        rcases hs : rs.privVal.SignVote w.pv rs.chainID vote with ⟨pv1, v, _ | err⟩
        · have h1 := handleSignVoteRequest_signed env rs w vote v pv1 hs
          have h2 : some (res, w1) =
              some (⟨some (.SignedVoteResponse v none)⟩,
                afterSignedVote env rs w vote v pv1) := h.symm.trans h1
          cases h2
          exact Or.inl ⟨vote, v, pv1, by simp only [signedVote, hs], hs, rfl⟩
        · have h1 := handleSignVoteRequest_failed env rs w vote v pv1 err hs
          have h2 : some (res, w1) = some (_, afterFailedVote rs w vote pv1 err) :=
            h.symm.trans h1
          cases h2
          refine Or.inr ⟨by simp only [signedVote, hs], ?_⟩
          cases err <;> exact ⟨rfl, rfl, rfl, rfl, rfl, rfl⟩
    | SignProposalRequest proposal c =>
      cases proposal with
      | none =>
        simp only [handleRequest, handleSignProposalRequest] at h
        rcases hs : rs.privVal.SignProposalNil w.pv rs.chainID with ⟨pv1, _ | err⟩
        · rw [hs] at h
          cases h
        · rw [hs] at h
          cases err <;> cases h <;> exact Or.inr ⟨rfl, rfl, rfl, rfl, rfl, rfl, rfl⟩
      | some proposal =>
        simp only [handleRequest, handleSignProposalRequest] at h
        rcases hs : rs.privVal.SignProposal w.pv rs.chainID proposal with ⟨pv1, p, _ | err⟩
        · rw [hs] at h
          cases h
          exact Or.inr ⟨rfl, rfl, rfl, rfl, rfl, rfl, rfl⟩
        · rw [hs] at h
          cases err <;> cases h <;> exact Or.inr ⟨rfl, rfl, rfl, rfl, rfl, rfl, rfl⟩
    | PubKeyRequest c =>
      simp only [handleRequest, handlePubKeyRequest] at h
      rcases hs : rs.privVal.GetPubKey w.pv with ⟨pv1, err | key⟩
      · rw [hs] at h
        cases h
        exact Or.inr ⟨rfl, rfl, rfl, rfl, rfl, rfl, rfl⟩
      · rw [hs] at h
        dsimp only at h
        rcases hc : env.PubKeyToProto key with err | pk
        · rw [hc] at h
          cases h
          exact Or.inr ⟨rfl, rfl, rfl, rfl, rfl, rfl, rfl⟩
        · rw [hc] at h
          cases h
          exact Or.inr ⟨rfl, rfl, rfl, rfl, rfl, rfl, rfl⟩
    | SignVoteRequestNil => cases h
    | SignProposalRequestNil => cases h
    | PingRequest =>
      cases h
      exact Or.inr ⟨rfl, rfl, rfl, rfl, rfl, rfl, rfl⟩
    | PubKeyResponse pk e =>
      cases h
      exact Or.inr ⟨rfl, rfl, rfl, rfl, rfl, rfl, rfl⟩
    | SignedVoteResponse v e =>
      cases h
      exact Or.inr ⟨rfl, rfl, rfl, rfl, rfl, rfl, rfl⟩
    | SignedProposalResponse p e =>
      cases h
      exact Or.inr ⟨rfl, rfl, rfl, rfl, rfl, rfl, rfl⟩
    | PingResponse =>
      cases h
      exact Or.inr ⟨rfl, rfl, rfl, rfl, rfl, rfl, rfl⟩

/-! ## C5: the recorded heights change only on a successful sign -/

/-- C5: after every call of `handleRequest` that returns, the recorded
last-signed height of each kind (precommit, prevote) is the height of the signed
vote if the request was a `SignVoteRequest` that the authority signed without
error and the signed vote is of that kind (whatever the height recorded before),
and is the height recorded before the call in every other case: failed
`SignVote`, vote of the other kind or of another type, `SignProposal`,
`PubKeyRequest`, `PingRequest`, unknown variant. Every call returns unless the
request is a `SignVoteRequest` or `SignProposalRequest` with a nil pointer. -/
theorem recorded_height_frame {σ : Type} (env : Env) (rs : ReconnRemoteSigner σ)
    (w : World σ) (req : Message) :
    (∀ res w1, handleRequest env rs w req = some (res, w1) →
      w1.previousPrecommitHeight =
        (match signedVote rs w req with
         | some v => if v.Type_ = PrecommitType then v.Height else w.previousPrecommitHeight
         | none => w.previousPrecommitHeight) ∧
      w1.previousPrevoteHeight =
        (match signedVote rs w req with
         | some v => if v.Type_ = PrevoteType then v.Height else w.previousPrevoteHeight
         | none => w.previousPrevoteHeight)) ∧
    (carriesPayload req = true → ∃ res w1, handleRequest env rs w req = some (res, w1)) := by
  refine ⟨?_, handleRequest_returns env rs w req⟩
  intro res w1 h
  rcases handleRequest_effect env rs w req res w1 h with
    ⟨vote0, v, pv1, hsv, _, hw⟩ | ⟨hsv, h1, h2, _⟩
  · rw [hsv, hw]
    by_cases h2 : v.Type_ = PrecommitType
    · have h1 : ¬ v.Type_ = PrevoteType := by
        rw [h2]; exact precommit_ne_prevote
      rw [afterSignedVote_precommit env rs w vote0 v pv1 h2]
      simp only [if_pos h2, if_neg h1]
      exact ⟨rfl, rfl⟩
    · by_cases h1 : v.Type_ = PrevoteType
      · rw [afterSignedVote_prevote env rs w vote0 v pv1 h1]
        simp only [if_pos h1, if_neg h2]
        exact ⟨rfl, rfl⟩
      · rw [afterSignedVote_other env rs w vote0 v pv1 h2 h1]
        simp only [if_neg h1, if_neg h2]
        exact ⟨rfl, rfl⟩
  · rw [hsv]
    exact ⟨h1, h2⟩

/-- C5 at concrete inputs: a precommit at height 7 (lower than the height 10
recorded before) that the authority signs. -/
theorem recorded_height_frame_witness :
    ((afterSignedVote sampleEnv (sampleSigner none (.ok sampleKey)) sampleWorld
        { Type_ := PrecommitType, Height := 7 }
        { Type_ := PrecommitType, Height := 7, Signature := [1, 2, 3, 4, 5, 6, 7, 8] }
        1).previousPrecommitHeight =
      (match signedVote (sampleSigner none (.ok sampleKey)) sampleWorld
          ⟨some (.SignVoteRequest (some { Type_ := PrecommitType, Height := 7 }) "chain")⟩ with
       | some v =>
         if v.Type_ = PrecommitType then v.Height else sampleWorld.previousPrecommitHeight
       | none => sampleWorld.previousPrecommitHeight) ∧
     (afterSignedVote sampleEnv (sampleSigner none (.ok sampleKey)) sampleWorld
        { Type_ := PrecommitType, Height := 7 }
        { Type_ := PrecommitType, Height := 7, Signature := [1, 2, 3, 4, 5, 6, 7, 8] }
        1).previousPrevoteHeight =
      (match signedVote (sampleSigner none (.ok sampleKey)) sampleWorld
          ⟨some (.SignVoteRequest (some { Type_ := PrecommitType, Height := 7 }) "chain")⟩ with
       | some v =>
         if v.Type_ = PrevoteType then v.Height else sampleWorld.previousPrevoteHeight
       | none => sampleWorld.previousPrevoteHeight)) ∧
    (∃ res w1, handleRequest sampleEnv (sampleSigner none (.ok sampleKey)) sampleWorld
        ⟨some (.SignVoteRequest (some { Type_ := PrecommitType, Height := 7 }) "chain")⟩ =
      some (res, w1)) :=
  ⟨(recorded_height_frame sampleEnv (sampleSigner none (.ok sampleKey)) sampleWorld
      ⟨some (.SignVoteRequest (some { Type_ := PrecommitType, Height := 7 }) "chain")⟩).1
      _ _ rfl,
   (recorded_height_frame sampleEnv (sampleSigner none (.ok sampleKey)) sampleWorld
      ⟨some (.SignVoteRequest (some { Type_ := PrecommitType, Height := 7 }) "chain")⟩).2
      rfl⟩

/-! ## C6: stopping the supervisors and the authority -/

theorem startNodes_all_started (rt : Runtime) (services : List Service)
    (nodes : List String) :
    startNodes (fun _ => none) rt services none nodes =
      ({ rt with loops := rt.loops ++ nodes },
        services ++ nodes.map startedSupervisor, none) := by
  induction nodes generalizing rt services with
  | nil => simp [startNodes]
  | cons node nodes ih =>
    simp only [startNodes, Service.Start, OnStart]
    rw [ih]
    simp [startedSupervisor, NewReconnRemoteSigner]

theorem StartRemoteSigners_all_started (rt : Runtime) (services : List Service)
    (nodes : List String) :
    StartRemoteSigners (fun _ => none) rt services nodes =
      ({ StartMetrics := rt.StartMetrics + 1, loops := rt.loops ++ nodes },
        services ++ nodes.map startedSupervisor, none) := by
  simp only [StartRemoteSigners]
  exact startNodes_all_started _ services nodes

theorem stopAll_started {σ : Type} (privVal : PrivValidator σ) (nodes : List String)
    (w : World σ) :
    stopCount (stopAll privVal (nodes.map startedSupervisor) w).2.pvCalls =
      stopCount w.pvCalls + nodes.length := by
  induction nodes generalizing w with
  | nil => simp [stopAll]
  | cons node nodes ih =>
    simp only [List.map_cons, stopAll, Service.Stop, startedSupervisor,
      NewReconnRemoteSigner]
    simp only [Bool.false_eq_true, if_false, Bool.not_true]
    have h := ih (OnStop privVal w)
    simp only [startedSupervisor, NewReconnRemoteSigner] at h
    rw [h]
    simp [OnStop, World.called, stopCount]
    omega

/-- C6 (as amended): for every list of endpoint addresses, `StartRemoteSigners`
over one shared authority (every start succeeding) returns one supervisor per
address, and stopping all of them invokes the authority's `Stop` once per
supervisor: as many times as there are addresses. -/
theorem stop_invoked_once_per_supervisor {σ : Type} (privVal : PrivValidator σ)
    (rt : Runtime) (nodes : List String) (w : World σ) :
    ∃ rt1 services, StartRemoteSigners (fun _ => none) rt [] nodes = (rt1, services, none) ∧
      services.length = nodes.length ∧
      stopCount (stopAll privVal services w).2.pvCalls =
        stopCount w.pvCalls + nodes.length := by
  refine ⟨_, _, StartRemoteSigners_all_started rt [] nodes, ?_, ?_⟩
  · simp
  · simp only [List.nil_append]
    exact stopAll_started privVal nodes w

/-- C6 refuted at two supervisors: after `StartRemoteSigners` on two addresses,
stopping both supervisors invokes the shared authority's `Stop` twice, not
once. -/
theorem stop_invoked_twice_for_two_supervisors :
    stopCount (stopAll (sampleAuthority none (.ok sampleKey))
      (StartRemoteSigners (fun _ => none) {} [] ["tcp://a:1", "tcp://b:1"]).2.1
      sampleWorld).2.pvCalls = 2 ∧
    ¬ stopCount (stopAll (sampleAuthority none (.ok sampleKey))
      (StartRemoteSigners (fun _ => none) {} [] ["tcp://a:1", "tcp://b:1"]).2.1
      sampleWorld).2.pvCalls = 1 := by
  decide

/-! ## C7 and C8: the connect loop -/

theorem runLoop_append {σ : Type} (conv : PubKey → Except GoError PublicKey)
    (rs : ReconnRemoteSigner σ) (st : LoopState σ) (xs ys : List Answer) :
    runLoop conv rs st (xs ++ ys) = runLoop conv rs (runLoop conv rs st xs) ys := by
  simp [runLoop, List.foldl_append]

theorem dialCount_append (xs ys : List Action) :
    dialCount (xs ++ ys) = dialCount xs + dialCount ys := by
  simp [dialCount, List.countP_append]

/-- One connect iteration whose dial fails: the loop stays in the connect loop
without a connection, has dialled once more, and both attempt counters are one
higher. -/
theorem stepConnect_dial_failed {σ : Type} (conv : PubKey → Except GoError PublicKey)
    (rs : ReconnRemoteSigner σ) (st : LoopState σ) (a : Answer) (e : GoError)
    (hp : st.point = .connect) (hd : a.dialErr = some e) :
    (stepLoop conv rs st a).point = .connect ∧
    (stepLoop conv rs st a).conn = st.conn ∧
    dialCount (stepLoop conv rs st a).actions = dialCount st.actions + 1 ∧
    (stepLoop conv rs st a).world.metrics.sentryConnectTries =
      st.world.metrics.sentryConnectTries + 1 := by
  simp [stepLoop, hp, stepConnect, hd, LoopState.act, LoopState.logLine, World.logLine,
    dialCount_append, dialCount]

theorem runLoop_failed_dials {σ : Type} (conv : PubKey → Except GoError PublicKey)
    (rs : ReconnRemoteSigner σ) (a : Answer) (e : GoError) (hd : a.dialErr = some e)
    (n : Nat) (st : LoopState σ) (hp : st.point = .connect) :
    (runLoop conv rs st (List.replicate n a)).point = .connect ∧
    (runLoop conv rs st (List.replicate n a)).conn = st.conn ∧
    dialCount (runLoop conv rs st (List.replicate n a)).actions =
      dialCount st.actions + n := by
  induction n generalizing st with
  | zero => simp [runLoop, hp]
  | succ n ih =>
    obtain ⟨h1, h2, h3, _⟩ := stepConnect_dial_failed conv rs st a e hp hd
    obtain ⟨i1, i2, i3⟩ := ih (stepLoop conv rs st a) h1
    simp only [runLoop, List.replicate_succ, List.foldl_cons] at i1 i2 i3 ⊢
    refine ⟨i1, ?_, ?_⟩
    · rw [i2, h2]
    · rw [i3, h3]; omega

/-- C7, what the code does: the loop is entered while the service runs, the first
dial fails, and from then on `IsRunning` is false (the service was stopped during
the retry sleep) while the dial keeps failing. After `n` further steps the loop
has dialled `n` more times (`n + 1` dials in all) and has not returned: it is
still in the connect loop, without a connection. -/
theorem connect_loop_dials_after_stop {σ : Type}
    (conv : PubKey → Except GoError PublicKey) (rs : ReconnRemoteSigner σ)
    (w : World σ) (e : GoError) (n : Nat) :
    (runLoop conv rs { world := w }
      ([{ running := true }, { dialErr := some e }] ++
        List.replicate n { running := false, dialErr := some e })).point = .connect ∧
    (runLoop conv rs { world := w }
      ([{ running := true }, { dialErr := some e }] ++
        List.replicate n { running := false, dialErr := some e })).conn = false ∧
    dialCount (runLoop conv rs { world := w }
      ([{ running := true }, { dialErr := some e }] ++
        List.replicate n { running := false, dialErr := some e })).actions = n + 1 := by
  rw [runLoop_append]
  have h0 : (runLoop conv rs ({ world := w } : LoopState σ) [{ running := true }, { dialErr := some e }]).point
      = .connect := by
    simp [runLoop, stepLoop, stepHead, stepConnect, LoopState.act, LoopState.logLine]
  have h1 : (runLoop conv rs ({ world := w } : LoopState σ) [{ running := true }, { dialErr := some e }]).conn
      = false := by
    simp [runLoop, stepLoop, stepHead, stepConnect, LoopState.act, LoopState.logLine]
  have h2 : dialCount
      (runLoop conv rs ({ world := w } : LoopState σ) [{ running := true }, { dialErr := some e }]).actions
      = 1 := by
    simp [runLoop, stepLoop, stepHead, stepConnect, LoopState.act, LoopState.logLine,
      dialCount]
  obtain ⟨i1, i2, i3⟩ := runLoop_failed_dials conv rs
    { running := false, dialErr := some e } e rfl n _ h0
  refine ⟨i1, ?_, ?_⟩
  · rw [i2, h1]
  · rw [i3, h2]; omega

theorem stepConnect_tries {σ : Type} (conv : PubKey → Except GoError PublicKey)
    (rs : ReconnRemoteSigner σ) (st : LoopState σ) (a : Answer)
    (hp : st.point = .connect) :
    (stepLoop conv rs st a).world.metrics.sentryConnectTries =
      if a.dialErr.isSome then st.world.metrics.sentryConnectTries + 1 else 0 := by
  simp only [stepLoop, hp, stepConnect]
  rcases hd : a.dialErr with _ | e
  · rcases hs : a.secretConnErr with _ | e2 <;>
      simp [LoopState.act, LoopState.logLine, World.logLine]
  · simp [LoopState.act, LoopState.logLine, World.logLine]

theorem stepConnect_stays {σ : Type} (conv : PubKey → Except GoError PublicKey)
    (rs : ReconnRemoteSigner σ) (st : LoopState σ) (a : Answer)
    (hp : st.point = .connect)
    (hf : a.dialErr.isSome = true ∨ a.secretConnErr.isSome = true) :
    (stepLoop conv rs st a).point = .connect := by
  simp only [stepLoop, hp, stepConnect]
  rcases hd : a.dialErr with _ | e
  · rcases hs : a.secretConnErr with _ | e2
    · simp [hd, hs] at hf
    · simp [LoopState.act, LoopState.logLine, hp]
  · simp [LoopState.act, LoopState.logLine, hp]

theorem runLoop_failed_attempts {σ : Type} (conv : PubKey → Except GoError PublicKey)
    (rs : ReconnRemoteSigner σ) (answers : List Answer) (st : LoopState σ)
    (hp : st.point = .connect)
    (hf : ∀ a ∈ answers, a.dialErr.isSome = true ∨ a.secretConnErr.isSome = true) :
    (runLoop conv rs st answers).point = .connect ∧
    (runLoop conv rs st answers).world.metrics.sentryConnectTries =
      connectTriesAfter st.world.metrics.sentryConnectTries answers := by
  induction answers generalizing st with
  | nil => simp [runLoop, connectTriesAfter, hp]
  | cons a rest ih =>
    have hstay := stepConnect_stays conv rs st a hp (hf a (List.mem_cons_self a rest))
    obtain ⟨i1, i2⟩ := ih (stepLoop conv rs st a) hstay
      (fun b hb => hf b (List.mem_cons_of_mem a hb))
    simp only [runLoop, connectTriesAfter, List.foldl_cons] at i1 i2 ⊢
    refine ⟨i1, ?_⟩
    rw [i2, stepConnect_tries conv rs st a hp]

/-- C8 (as amended): in the connect loop every failed dial adds 1 to the
connection-attempts gauge and every successful dial sets it to zero before the
handshake is tried; a failed handshake does not change it. So after any run of
failed attempts (failed dial, or failed handshake) followed by one more attempt
of any outcome, the gauge is the value given by `connectTriesAfter`: zero if the
dial of the last attempt succeeded (in particular after a successful handshake),
and otherwise one more than after the attempt before. -/
theorem connect_tries_counts_failed_dials {σ : Type}
    (conv : PubKey → Except GoError PublicKey) (rs : ReconnRemoteSigner σ)
    (st : LoopState σ) (answers : List Answer) (last : Answer)
    (hp : st.point = .connect)
    (hf : ∀ a ∈ answers, a.dialErr.isSome = true ∨ a.secretConnErr.isSome = true) :
    (runLoop conv rs st (answers ++ [last])).world.metrics.sentryConnectTries =
      connectTriesAfter st.world.metrics.sentryConnectTries (answers ++ [last]) ∧
    (runLoop conv rs st (answers ++ [last])).world.metrics.sentryConnectTries =
      (if last.dialErr.isSome then
        (runLoop conv rs st answers).world.metrics.sentryConnectTries + 1
      else 0) := by
  obtain ⟨h1, h2⟩ := runLoop_failed_attempts conv rs answers st hp hf
  have hstep := stepConnect_tries conv rs (runLoop conv rs st answers) last h1
  rw [runLoop_append]
  simp only [runLoop, List.foldl_cons, List.foldl_nil, connectTriesAfter,
    List.foldl_append] at h2 hstep ⊢
  refine ⟨?_, hstep⟩
  rw [hstep, h2]

/-- C8 (as amended) at a concrete run: a failed dial, a failed handshake, then a
failed dial, from a gauge at zero. -/
theorem connect_tries_counts_failed_dials_witness :
    (runLoop sampleConv (sampleSigner none (.ok sampleKey))
        { point := .connect, world := sampleWorld }
        ([{ dialErr := some (.other "refused") }, { secretConnErr := some (.other "eof") }] ++
          [{ dialErr := some (.other "refused") }])).world.metrics.sentryConnectTries =
      connectTriesAfter sampleWorld.metrics.sentryConnectTries
        ([{ dialErr := some (.other "refused") }, { secretConnErr := some (.other "eof") }] ++
          [{ dialErr := some (.other "refused") }]) ∧
    (runLoop sampleConv (sampleSigner none (.ok sampleKey))
        { point := .connect, world := sampleWorld }
        ([{ dialErr := some (.other "refused") }, { secretConnErr := some (.other "eof") }] ++
          [{ dialErr := some (.other "refused") }])).world.metrics.sentryConnectTries =
      (if (some (GoError.other "refused")).isSome then
        (runLoop sampleConv (sampleSigner none (.ok sampleKey))
          { point := .connect, world := sampleWorld }
          [{ dialErr := some (.other "refused") },
            { secretConnErr := some (.other "eof") }]).world.metrics.sentryConnectTries + 1
      else 0) :=
  connect_tries_counts_failed_dials sampleConv (sampleSigner none (.ok sampleKey))
    { point := .connect, world := sampleWorld }
    [{ dialErr := some (.other "refused") }, { secretConnErr := some (.other "eof") }]
    { dialErr := some (.other "refused") } rfl (by simp)

/-- C8 refuted: from a gauge at zero, two failed dials and then a dial that
succeeds with a failed handshake are three failed attempts with no successful
handshake, and the gauge is 0, not 3; the loop is still connecting. -/
theorem connect_tries_reset_without_handshake :
    (runLoop sampleConv (sampleSigner none (.ok sampleKey))
        { point := .connect, world := sampleWorld }
        [{ dialErr := some (.other "refused") }, { dialErr := some (.other "refused") },
          { secretConnErr := some (.other "eof") }]).world.metrics.sentryConnectTries = 0 ∧
    (runLoop sampleConv (sampleSigner none (.ok sampleKey))
        { point := .connect, world := sampleWorld }
        [{ dialErr := some (.other "refused") }, { dialErr := some (.other "refused") },
          { secretConnErr := some (.other "eof") }]).point = .connect ∧
    (runLoop sampleConv (sampleSigner none (.ok sampleKey))
        { point := .connect, world := sampleWorld }
        [{ dialErr := some (.other "refused") },
          { dialErr := some (.other "refused") }]).world.metrics.sentryConnectTries = 2 := by
  decide

/-! ## C9: the public-key query -/

/-- C9: every call of `handlePubKeyRequest` adds exactly 1 to the pub-key query
counter, whatever the authority does; if `GetPubKey` fails, or the conversion to
the wire key fails, with error `err`, the response is a `PubKeyResponse` with the
unset key (no key bytes) and an error whose description is `err`'s message; if
both succeed the response carries the converted key and no error. -/
theorem pub_key_response {σ : Type} (env : Env) (rs : ReconnRemoteSigner σ)
    (w : World σ) :
    (handlePubKeyRequest env rs w).2.metrics.totalPubKeyRequests =
      w.metrics.totalPubKeyRequests + 1 ∧
    PublicKey.empty.keyBytes = [] ∧
    (∀ pv1 err, rs.privVal.GetPubKey w.pv = (pv1, .error err) →
      (handlePubKeyRequest env rs w).1 =
        ⟨some (.PubKeyResponse .empty (some { Code := 0, Description := err.Error }))⟩) ∧
    (∀ pv1 key err, rs.privVal.GetPubKey w.pv = (pv1, .ok key) →
      env.PubKeyToProto key = .error err →
      (handlePubKeyRequest env rs w).1 =
        ⟨some (.PubKeyResponse .empty (some { Code := 0, Description := err.Error }))⟩) ∧
    (∀ pv1 key pk, rs.privVal.GetPubKey w.pv = (pv1, .ok key) →
      env.PubKeyToProto key = .ok pk →
      (handlePubKeyRequest env rs w).1 = ⟨some (.PubKeyResponse pk none)⟩) := by
  refine ⟨?_, rfl, ?_, ?_, ?_⟩
  · simp only [handlePubKeyRequest]
    rcases rs.privVal.GetPubKey w.pv with ⟨pv1, err | key⟩
    · rfl
    · dsimp only
      rcases env.PubKeyToProto key with err | pk <;> rfl
  · intro pv1 err h
    simp only [handlePubKeyRequest, h]
    rfl
  · intro pv1 key err h hc
    simp only [handlePubKeyRequest, h, hc]
    rfl
  · intro pv1 key pk h hc
    simp only [handlePubKeyRequest, h, hc]

/-- C9 at concrete inputs: an authority whose `GetPubKey` fails, a key the
conversion rejects, and a key it accepts. -/
theorem pub_key_response_witness :
    (handlePubKeyRequest sampleEnv (sampleSigner none (.error (.other "no key")))
        sampleWorld).1 =
      ⟨some (.PubKeyResponse .empty
        (some { Code := 0, Description := GoError.Error (.other "no key") }))⟩ ∧
    (handlePubKeyRequest sampleEnv
        (sampleSigner none (.ok { keyType := "sr25519", key := [1] })) sampleWorld).1 =
      ⟨some (.PubKeyResponse .empty
        (some { Code := 0, Description := GoError.Error (.other "unsupported key") }))⟩ ∧
    (handlePubKeyRequest sampleEnv (sampleSigner none (.ok sampleKey)) sampleWorld).1 =
      ⟨some (.PubKeyResponse (.Ed25519 [7, 7, 7]) none)⟩ :=
  ⟨(pub_key_response sampleEnv (sampleSigner none (.error (.other "no key")))
      sampleWorld).2.2.1 1 (.other "no key") rfl,
   (pub_key_response sampleEnv (sampleSigner none (.ok { keyType := "sr25519", key := [1] }))
      sampleWorld).2.2.2.1 1 { keyType := "sr25519", key := [1] } (.other "unsupported key")
      rfl rfl,
   (pub_key_response sampleEnv (sampleSigner none (.ok sampleKey))
      sampleWorld).2.2.2.2 1 sampleKey (.Ed25519 [7, 7, 7]) rfl rfl⟩

/-! ## C10: ping -/

/-- C10: on a `PingRequest`, in every world, `handleRequest` returns the
`PingResponse` and leaves the world as it was: no call is made through the
authority (the list of calls and the authority's state are unchanged) and the
recorded heights, the time keeper, the log and every counter and gauge keep
their values. -/
theorem ping_has_no_side_effect {σ : Type} (env : Env) (rs : ReconnRemoteSigner σ)
    (w : World σ) :
    handleRequest env rs w ⟨some .PingRequest⟩ = some (⟨some .PingResponse⟩, w) :=
  rfl

/-! ## C11: reconnecting after failed dials -/

theorem runLoop_failed_dials_trace {σ : Type} (conv : PubKey → Except GoError PublicKey)
    (rs : ReconnRemoteSigner σ) (e : GoError) (n : Nat) (st : LoopState σ)
    (hp : st.point = .connect) :
    (runLoop conv rs st (List.replicate n { dialErr := some e })).point = .connect ∧
    (runLoop conv rs st (List.replicate n { dialErr := some e })).conn = st.conn ∧
    (runLoop conv rs st (List.replicate n { dialErr := some e })).actions =
      st.actions ++ retryTrace rs.address n := by
  induction n generalizing st with
  | zero => simp [runLoop, hp, retryTrace]
  | succ n ih =>
    have h1 : (stepLoop conv rs st { dialErr := some e }).point = .connect := by
      simp [stepLoop, hp, stepConnect, LoopState.act, LoopState.logLine]
    have h2 : (stepLoop conv rs st { dialErr := some e }).conn = st.conn := by
      simp [stepLoop, hp, stepConnect, LoopState.act, LoopState.logLine]
    have h3 : (stepLoop conv rs st { dialErr := some e }).actions =
        st.actions ++ [.Dial rs.address, .Sleep 3] := by
      simp [stepLoop, hp, stepConnect, LoopState.act, LoopState.logLine]
    obtain ⟨i1, i2, i3⟩ := ih (stepLoop conv rs st { dialErr := some e }) h1
    simp only [runLoop, List.replicate_succ, List.foldl_cons] at i1 i2 i3 ⊢
    refine ⟨i1, ?_, ?_⟩
    · rw [i2, h2]
    · rw [i3, h3]
      simp [retryTrace]

theorem dialCount_retryTrace (address : String) (n : Nat) :
    dialCount (retryTrace address n) = n := by
  induction n with
  | zero => rfl
  | succ n ih =>
    simp only [retryTrace, dialCount, List.countP_cons] at ih ⊢
    simp [ih]

theorem sleeps_retryTrace (address : String) (n : Nat) :
    sleeps (retryTrace address n) = List.replicate n 3 := by
  induction n with
  | zero => rfl
  | succ n ih =>
    simp only [retryTrace, sleeps, List.filterMap_cons] at ih ⊢
    simp [ih, List.replicate_succ]

theorem return_not_mem_retryTrace (address : String) (n : Nat) :
    Action.Return ∉ retryTrace address n := by
  induction n with
  | zero => simp [retryTrace]
  | succ n ih => simp [retryTrace, ih]

theorem stepConnect_connected {σ : Type} (conv : PubKey → Except GoError PublicKey)
    (rs : ReconnRemoteSigner σ) (st : LoopState σ) (hp : st.point = .connect) :
    (stepLoop conv rs st { running := true }).point = .serve ∧
    (stepLoop conv rs st { running := true }).conn = true ∧
    (stepLoop conv rs st { running := true }).actions =
      st.actions ++ [.Dial rs.address, .MakeSecretConnection] := by
  simp [stepLoop, hp, stepConnect, LoopState.act, LoopState.logLine]

/-- C11: for every `N`, a supervisor that enters the loop while the service runs
and whose dial fails `N` times in a row and then succeeds, with the handshake
succeeding, performs exactly `N + 1` dials and exactly `N` sleeps, each of the
retry delay of three seconds and each right after a failed dial; it then holds a
connection at the serve point (Connected), and it has not returned: after each
of the failed attempts it is still in the connect loop, and `Return` is not
among its actions. -/
theorem reconnect_after_failed_dials {σ : Type}
    (conv : PubKey → Except GoError PublicKey) (rs : ReconnRemoteSigner σ)
    (w : World σ) (e : GoError) (N : Nat) :
    (runLoop conv rs { world := w } (failedDialsThenSuccess e N)).point = .serve ∧
    (runLoop conv rs { world := w } (failedDialsThenSuccess e N)).conn = true ∧
    (runLoop conv rs { world := w } (failedDialsThenSuccess e N)).actions =
      retryTrace rs.address N ++ [.Dial rs.address, .MakeSecretConnection] ∧
    dialCount (runLoop conv rs { world := w } (failedDialsThenSuccess e N)).actions = N + 1 ∧
    sleeps (runLoop conv rs { world := w } (failedDialsThenSuccess e N)).actions =
      List.replicate N 3 ∧
    Action.Return ∉ (runLoop conv rs { world := w } (failedDialsThenSuccess e N)).actions ∧
    ∀ m, m ≤ N →
      (runLoop conv rs { world := w }
        ([{ running := true }] ++ List.replicate m { dialErr := some e })).point =
        .connect := by
  have h0p : (runLoop conv rs ({ world := w } : LoopState σ) [{ running := true }]).point
      = .connect := by
    simp [runLoop, stepLoop, stepHead]
  have h0c : (runLoop conv rs ({ world := w } : LoopState σ) [{ running := true }]).conn
      = false := by
    simp [runLoop, stepLoop, stepHead]
  have h0a : (runLoop conv rs ({ world := w } : LoopState σ) [{ running := true }]).actions
      = [] := by
    simp [runLoop, stepLoop, stepHead]
  have hstay : ∀ m,
      (runLoop conv rs ({ world := w } : LoopState σ)
        ([{ running := true }] ++ List.replicate m { dialErr := some e })).point = .connect ∧
      (runLoop conv rs ({ world := w } : LoopState σ)
        ([{ running := true }] ++ List.replicate m { dialErr := some e })).actions =
        retryTrace rs.address m := by
    intro m
    rw [runLoop_append]
    obtain ⟨i1, _, i3⟩ := runLoop_failed_dials_trace conv rs e m _ h0p
    refine ⟨i1, ?_⟩
    rw [i3, h0a, List.nil_append]
  obtain ⟨hp, ha⟩ := hstay N
  have hrun : runLoop conv rs ({ world := w } : LoopState σ) (failedDialsThenSuccess e N) =
      stepLoop conv rs
        (runLoop conv rs ({ world := w } : LoopState σ)
          ([{ running := true }] ++ List.replicate N { dialErr := some e }))
        { running := true } := by
    simp only [failedDialsThenSuccess, runLoop, List.foldl_append, List.foldl_cons,
      List.foldl_nil]
  obtain ⟨c1, c2, c3⟩ := stepConnect_connected conv rs _ hp
  have hact : (runLoop conv rs ({ world := w } : LoopState σ)
      (failedDialsThenSuccess e N)).actions =
      retryTrace rs.address N ++ [.Dial rs.address, .MakeSecretConnection] := by
    rw [hrun, c3, ha]
  refine ⟨?_, ?_, hact, ?_, ?_, ?_, fun m _ => (hstay m).1⟩
  · rw [hrun]
    exact c1
  · rw [hrun]
    exact c2
  · rw [hact, dialCount_append, dialCount_retryTrace]
    simp [dialCount]
  · rw [hact]
    simp [sleeps, List.filterMap_append]
    exact sleeps_retryTrace rs.address N
  · rw [hact]
    simp [return_not_mem_retryTrace]

/-! ## C12: the proposal handler -/

/-- C13: for every request that is none of the four known variants (a response
variant sent as a request, or no variant set), `handleRequest` returns the empty
message, with no payload set; it makes no call through the authority and
changes no recorded height, no counter or gauge and no instant of the time
keeper: the world differs only by the error line that is logged. -/
theorem unknown_request_default_response {σ : Type} (env : Env)
    (rs : ReconnRemoteSigner σ) (w : World σ) (req : Message)
    (h : isKnownRequest req = false) :
    ∃ w1, handleRequest env rs w req = some (⟨none⟩, w1) ∧
      w1 = w.logLine .error "Unknown request" [] ∧
      w1.pvCalls = w.pvCalls ∧ w1.pv = w.pv ∧
      w1.previousPrecommitHeight = w.previousPrecommitHeight ∧
      w1.previousPrevoteHeight = w.previousPrevoteHeight ∧
      w1.metrics = w.metrics ∧ w1.metricsTimeKeeper = w.metricsTimeKeeper := by
  refine ⟨w.logLine .error "Unknown request" [], ?_, rfl, rfl, rfl, rfl, rfl, rfl, rfl⟩
  rcases req with ⟨_ | sum⟩
  · rfl
  · cases sum <;> first | rfl | simp [isKnownRequest] at h

/-- C13 at concrete inputs: a message with no variant set, and a `PingResponse`
received as a request. -/
theorem unknown_request_default_response_witness :
    (∃ w1, handleRequest sampleEnv (sampleSigner none (.ok sampleKey)) sampleWorld ⟨none⟩ =
        some (⟨none⟩, w1) ∧
      w1 = sampleWorld.logLine .error "Unknown request" [] ∧
      w1.pvCalls = sampleWorld.pvCalls ∧ w1.pv = sampleWorld.pv ∧
      w1.previousPrecommitHeight = sampleWorld.previousPrecommitHeight ∧
      w1.previousPrevoteHeight = sampleWorld.previousPrevoteHeight ∧
      w1.metrics = sampleWorld.metrics ∧
      w1.metricsTimeKeeper = sampleWorld.metricsTimeKeeper) ∧
    (∃ w1, handleRequest sampleEnv (sampleSigner none (.ok sampleKey)) sampleWorld
        ⟨some .PingResponse⟩ = some (⟨none⟩, w1) ∧
      w1 = sampleWorld.logLine .error "Unknown request" [] ∧
      w1.pvCalls = sampleWorld.pvCalls ∧ w1.pv = sampleWorld.pv ∧
      w1.previousPrecommitHeight = sampleWorld.previousPrecommitHeight ∧
      w1.previousPrevoteHeight = sampleWorld.previousPrevoteHeight ∧
      w1.metrics = sampleWorld.metrics ∧
      w1.metricsTimeKeeper = sampleWorld.metricsTimeKeeper) :=
  ⟨unknown_request_default_response sampleEnv (sampleSigner none (.ok sampleKey))
      sampleWorld ⟨none⟩ rfl,
   unknown_request_default_response sampleEnv (sampleSigner none (.ok sampleKey))
      sampleWorld ⟨some .PingResponse⟩ rfl⟩

/-! ## C14: starting the supervisors -/

theorem startNodes_prefix (refusal : String → Option GoError) (pre rest : List String)
    (rt : Runtime) (services : List Service) (hpre : ∀ n ∈ pre, refusal n = none) :
    startNodes refusal rt services none (pre ++ rest) =
      startNodes refusal { rt with loops := rt.loops ++ pre }
        (services ++ pre.map startedSupervisor) none rest := by
  induction pre generalizing rt services with
  | nil => simp
  | cons node pre ih =>
    have hnode : refusal node = none := hpre node (List.mem_cons_self node pre)
    simp only [List.cons_append, startNodes, Service.Start, OnStart, hnode, List.append_eq]
    rw [ih _ _ (fun n hn => hpre n (List.mem_cons_of_mem node hn))]
    simp [startedSupervisor, NewReconnRemoteSigner]

/-- C14: `StartRemoteSigners` starts the metrics sink once and then, if the
supervisor of every address starts, returns the existing services in their
order followed by one started supervisor per address in address order (so
existing length plus number of addresses) and a nil error, with one loop running
per address; if the start of the supervisor of some address fails with `err`
while those of the addresses before it succeeded, it returns that first error
(and a nil slice), no loop is started for that address or any later one, and the
loops of the supervisors started before are left running: nothing stops them. -/
theorem start_remote_signers_result (refusal : String → Option GoError) (rt : Runtime)
    (services : List Service) :
    (∀ nodes, (∀ n ∈ nodes, refusal n = none) →
      StartRemoteSigners refusal rt services nodes =
        ({ StartMetrics := rt.StartMetrics + 1, loops := rt.loops ++ nodes },
          services ++ nodes.map startedSupervisor, none) ∧
      (StartRemoteSigners refusal rt services nodes).2.1.length =
        services.length + nodes.length) ∧
    (∀ pre bad post err, (∀ n ∈ pre, refusal n = none) → refusal bad = some err →
      StartRemoteSigners refusal rt services (pre ++ bad :: post) =
        ({ StartMetrics := rt.StartMetrics + 1, loops := rt.loops ++ pre }, [], some err)) := by
  constructor
  · intro nodes hnodes
    have h : StartRemoteSigners refusal rt services nodes =
        ({ StartMetrics := rt.StartMetrics + 1, loops := rt.loops ++ nodes },
          services ++ nodes.map startedSupervisor, none) := by
      have hp := startNodes_prefix refusal nodes []
        { rt with StartMetrics := rt.StartMetrics + 1 } services hnodes
      simp only [List.append_nil] at hp
      simp only [StartRemoteSigners, hp, startNodes]
    refine ⟨h, ?_⟩
    rw [h]
    simp
  · intro pre bad post err hpre hbad
    have hp := startNodes_prefix refusal pre (bad :: post)
      { rt with StartMetrics := rt.StartMetrics + 1 } services hpre
    simp only [StartRemoteSigners, hp, startNodes, Service.Start, hbad]

/-- C14 at concrete inputs: three addresses that all start, and three addresses
of which the second is refused. -/
theorem start_remote_signers_result_witness :
    (StartRemoteSigners (fun _ => none) {} [{ name := "other", address := "" }]
        ["tcp://a:1", "tcp://b:1", "tcp://c:1"] =
      ({ StartMetrics := 1, loops := [] ++ ["tcp://a:1", "tcp://b:1", "tcp://c:1"] },
        [{ name := "other", address := "" }] ++
          ["tcp://a:1", "tcp://b:1", "tcp://c:1"].map startedSupervisor, none) ∧
      (StartRemoteSigners (fun _ => none) {} [{ name := "other", address := "" }]
        ["tcp://a:1", "tcp://b:1", "tcp://c:1"]).2.1.length = 1 + 3) ∧
    StartRemoteSigners
        (fun n => if n = "tcp://b:1" then some (.other "cannot start") else none) {}
        [{ name := "other", address := "" }] (["tcp://a:1"] ++ "tcp://b:1" :: ["tcp://c:1"]) =
      ({ StartMetrics := 1, loops := [] ++ ["tcp://a:1"] }, [],
        some (.other "cannot start")) :=
  ⟨(start_remote_signers_result (fun _ => none) {} [{ name := "other", address := "" }]).1
      ["tcp://a:1", "tcp://b:1", "tcp://c:1"] (fun _ _ => rfl),
   (start_remote_signers_result
      (fun n => if n = "tcp://b:1" then some (.other "cannot start") else none) {}
      [{ name := "other", address := "" }]).2
      ["tcp://a:1"] "tcp://b:1" ["tcp://c:1"] (.other "cannot start")
      (by decide) (by decide)⟩

/-! ## C16: the since-start totals follow the streak counters -/

theorem recordPrecommit_missedCells {σ : Type} (env : Env) (w : World σ) (vote : Vote) :
    missedCellsMove w.metrics (recordPrecommit env w vote).metrics := by
  by_cases hgap : w.previousPrecommitHeight ≠ 0 ∧
      subInt64 vote.Height w.previousPrecommitHeight > 1
  · right; left
    exact ⟨float64 (subInt64 vote.Height w.previousPrecommitHeight),
      one_lt_float64 _ hgap.2,
      by simp [recordPrecommit, hgap], by simp [recordPrecommit, hgap],
      by simp [recordPrecommit, hgap], by simp [recordPrecommit, hgap]⟩
  · right; right; left
    exact ⟨by simp [recordPrecommit, hgap], by simp [recordPrecommit, hgap],
      by simp [recordPrecommit, hgap], by simp [recordPrecommit, hgap]⟩

theorem recordPrevote_missedCells {σ : Type} (env : Env) (w : World σ) (vote : Vote) :
    missedCellsMove w.metrics (recordPrevote env w vote).metrics := by
  by_cases hgap : w.previousPrevoteHeight ≠ 0 ∧
      subInt64 vote.Height w.previousPrevoteHeight > 1
  · right; right; right; left
    exact ⟨float64 (subInt64 vote.Height w.previousPrevoteHeight),
      one_lt_float64 _ hgap.2,
      by simp [recordPrevote, hgap], by simp [recordPrevote, hgap],
      by simp [recordPrevote, hgap], by simp [recordPrevote, hgap]⟩
  · right; right; right; right
    exact ⟨by simp [recordPrevote, hgap], by simp [recordPrevote, hgap],
      by simp [recordPrevote, hgap], by simp [recordPrevote, hgap]⟩

theorem missedCellsMove_refl (m m1 : Metrics)
    (h1 : m1.missedPrecommits = m.missedPrecommits)
    (h2 : m1.totalMissedPrecommits = m.totalMissedPrecommits)
    (h3 : m1.missedPrevotes = m.missedPrevotes)
    (h4 : m1.totalMissedPrevotes = m.totalMissedPrevotes) : missedCellsMove m m1 :=
  Or.inl ⟨h1, h2, h3, h4⟩

/-- Every call of `handleRequest` that returns moves the four missed-vote cells
in one of the ways of `missedCellsMove`. -/
theorem handleRequest_missedCells {σ : Type} (env : Env) (rs : ReconnRemoteSigner σ)
    (w : World σ) (req : Message) (res : Message) (w1 : World σ)
    (h : handleRequest env rs w req = some (res, w1)) :
    missedCellsMove w.metrics w1.metrics := by
  rcases handleRequest_effect env rs w req res w1 h with
    ⟨vote0, v, pv1, _, _, hw⟩ | ⟨_, _, _, a, b, c, d⟩
  · rw [hw]
    by_cases h2 : v.Type_ = PrecommitType
    · rw [afterSignedVote_precommit env rs w vote0 v pv1 h2]
      exact recordPrecommit_missedCells env _ v
    · by_cases h1 : v.Type_ = PrevoteType
      · rw [afterSignedVote_prevote env rs w vote0 v pv1 h1]
        exact recordPrevote_missedCells env _ v
      · rw [afterSignedVote_other env rs w vote0 v pv1 h2 h1]
        exact missedCellsMove_refl _ _ rfl rfl rfl rfl
  · exact missedCellsMove_refl _ _ a b c d

/-- C16: in every world whose two streak counters are not negative (as at start,
where they are 0), every call of `handleRequest` that returns leaves the two
streak counters non-negative, and for each kind (precommit, prevote) the
since-start total has not decreased, has increased exactly when the streak
counter of the same kind has increased and then by the same amount, and is
unchanged when the streak counter was reset to 0 or untouched. Every call
returns unless the request is a `SignVoteRequest` or `SignProposalRequest` with a
nil pointer. -/
theorem missed_totals_track_streaks {σ : Type} (env : Env) (rs : ReconnRemoteSigner σ)
    (w : World σ) (req : Message)
    (hpc : 0 ≤ w.metrics.missedPrecommits) (hpv : 0 ≤ w.metrics.missedPrevotes) :
    (∀ res w1, handleRequest env rs w req = some (res, w1) →
      0 ≤ w1.metrics.missedPrecommits ∧ 0 ≤ w1.metrics.missedPrevotes ∧
      totalTracksStreak w.metrics.totalMissedPrecommits w1.metrics.totalMissedPrecommits
        w.metrics.missedPrecommits w1.metrics.missedPrecommits ∧
      totalTracksStreak w.metrics.totalMissedPrevotes w1.metrics.totalMissedPrevotes
        w.metrics.missedPrevotes w1.metrics.missedPrevotes) ∧
    (carriesPayload req = true → ∃ res w1, handleRequest env rs w req = some (res, w1)) := by
  refine ⟨?_, handleRequest_returns env rs w req⟩
  intro res w1 h
  have hmove := handleRequest_missedCells env rs w req res w1 h
  unfold totalTracksStreak
  rcases hmove with ⟨a, b, c, d⟩ | ⟨step, hs, a, b, c, d⟩ | ⟨a, b, c, d⟩ |
    ⟨step, hs, a, b, c, d⟩ | ⟨a, b, c, d⟩ <;>
  · rw [a, b, c, d]
    refine ⟨by omega, by omega, ⟨by omega, by omega, by omega, by omega⟩,
      ⟨by omega, by omega, by omega, by omega⟩⟩

/-- C16 at concrete inputs: from `sampleWorld` (streak counters at 0), a precommit
signed at height 12 after height 10. -/
theorem missed_totals_track_streaks_witness :
    (0 ≤ (afterSignedVote sampleEnv (sampleSigner none (.ok sampleKey)) sampleWorld
        { Type_ := PrecommitType, Height := 12 }
        { Type_ := PrecommitType, Height := 12, Signature := [1, 2, 3, 4, 5, 6, 7, 8] }
        1).metrics.missedPrecommits ∧
      0 ≤ (afterSignedVote sampleEnv (sampleSigner none (.ok sampleKey)) sampleWorld
        { Type_ := PrecommitType, Height := 12 }
        { Type_ := PrecommitType, Height := 12, Signature := [1, 2, 3, 4, 5, 6, 7, 8] }
        1).metrics.missedPrevotes ∧
      totalTracksStreak sampleWorld.metrics.totalMissedPrecommits
        (afterSignedVote sampleEnv (sampleSigner none (.ok sampleKey)) sampleWorld
          { Type_ := PrecommitType, Height := 12 }
          { Type_ := PrecommitType, Height := 12, Signature := [1, 2, 3, 4, 5, 6, 7, 8] }
          1).metrics.totalMissedPrecommits
        sampleWorld.metrics.missedPrecommits
        (afterSignedVote sampleEnv (sampleSigner none (.ok sampleKey)) sampleWorld
          { Type_ := PrecommitType, Height := 12 }
          { Type_ := PrecommitType, Height := 12, Signature := [1, 2, 3, 4, 5, 6, 7, 8] }
          1).metrics.missedPrecommits ∧
      totalTracksStreak sampleWorld.metrics.totalMissedPrevotes
        (afterSignedVote sampleEnv (sampleSigner none (.ok sampleKey)) sampleWorld
          { Type_ := PrecommitType, Height := 12 }
          { Type_ := PrecommitType, Height := 12, Signature := [1, 2, 3, 4, 5, 6, 7, 8] }
          1).metrics.totalMissedPrevotes
        sampleWorld.metrics.missedPrevotes
        (afterSignedVote sampleEnv (sampleSigner none (.ok sampleKey)) sampleWorld
          { Type_ := PrecommitType, Height := 12 }
          { Type_ := PrecommitType, Height := 12, Signature := [1, 2, 3, 4, 5, 6, 7, 8] }
          1).metrics.missedPrevotes) ∧
    (∃ res w1, handleRequest sampleEnv (sampleSigner none (.ok sampleKey)) sampleWorld
        ⟨some (.SignVoteRequest (some { Type_ := PrecommitType, Height := 12 }) "chain")⟩ =
      some (res, w1)) :=
  ⟨(missed_totals_track_streaks sampleEnv (sampleSigner none (.ok sampleKey)) sampleWorld
      ⟨some (.SignVoteRequest (some { Type_ := PrecommitType, Height := 12 }) "chain")⟩
      (by decide) (by decide)).1 _ _ rfl,
   (missed_totals_track_streaks sampleEnv (sampleSigner none (.ok sampleKey)) sampleWorld
      ⟨some (.SignVoteRequest (some { Type_ := PrecommitType, Height := 12 }) "chain")⟩
      (by decide) (by decide)).2 rfl⟩

/-! ## C17: the response does not depend on the tracker -/

/-- C17: for any two worlds with the same authority state (so the authority
answers the same) and any recorded heights, counters, gauges, instants and log
lines, the two calls of `handleRequest` on the same request end the same way:
for a request that carries its vote or proposal both return, with equal
responses; for a `SignVoteRequest` or `SignProposalRequest` with a nil pointer
both return equal responses or both panic. -/
theorem response_independent_of_tracker {σ : Type} (env : Env)
    (rs : ReconnRemoteSigner σ) (w1 w2 : World σ) (req : Message) (hpv : w1.pv = w2.pv) :
    responseOf (handleRequest env rs w1 req) = responseOf (handleRequest env rs w2 req) ∧
    (carriesPayload req = true →
      ∃ res u1 u2, handleRequest env rs w1 req = some (res, u1) ∧
        handleRequest env rs w2 req = some (res, u2)) := by
  have hsame : responseOf (handleRequest env rs w1 req) =
      responseOf (handleRequest env rs w2 req) := by
    rcases req with ⟨_ | sum⟩
    · rfl
    · cases sum with
      | SignVoteRequest vote c =>
        cases vote with
        | none =>
          simp only [handleRequest, handleSignVoteRequest, ← hpv]
          rcases rs.privVal.SignVoteNil w1.pv rs.chainID with ⟨pv1, _ | err⟩
          · rfl
          · cases err <;> rfl
        | some vote =>
          rcases h : rs.privVal.SignVote w1.pv rs.chainID vote with ⟨pv1, v, _ | err⟩
          · have h2 : rs.privVal.SignVote w2.pv rs.chainID vote = (pv1, v, none) := by
              rw [← hpv]; exact h
            simp only [handleRequest, handleSignVoteRequest_signed env rs w1 vote v pv1 h,
              handleSignVoteRequest_signed env rs w2 vote v pv1 h2]
            rfl
          · have h2 : rs.privVal.SignVote w2.pv rs.chainID vote = (pv1, v, some err) := by
              rw [← hpv]; exact h
            simp only [handleRequest, handleSignVoteRequest_failed env rs w1 vote v pv1 err h,
              handleSignVoteRequest_failed env rs w2 vote v pv1 err h2]
            rfl
      | SignProposalRequest proposal c =>
        cases proposal with
        | none =>
          simp only [handleRequest, handleSignProposalRequest, ← hpv]
          rcases rs.privVal.SignProposalNil w1.pv rs.chainID with ⟨pv1, _ | err⟩ <;> rfl
        | some proposal =>
          simp only [handleRequest, handleSignProposalRequest, ← hpv]
          rcases rs.privVal.SignProposal w1.pv rs.chainID proposal with ⟨pv1, p, _ | err⟩ <;>
            rfl
      | PubKeyRequest c =>
        simp only [handleRequest, handlePubKeyRequest, ← hpv]
        rcases rs.privVal.GetPubKey w1.pv with ⟨pv1, err | key⟩
        · rfl
        · dsimp only
          rcases env.PubKeyToProto key with err | pk <;> rfl
      | SignVoteRequestNil => rfl
      | SignProposalRequestNil => rfl
      | PingRequest => rfl
      | PubKeyResponse pk e => rfl
      | SignedVoteResponse v e => rfl
      | SignedProposalResponse p e => rfl
      | PingResponse => rfl
  refine ⟨hsame, ?_⟩
  intro hreq
  obtain ⟨res, u1, h1⟩ := handleRequest_returns env rs w1 req hreq
  obtain ⟨res2, u2, h2⟩ := handleRequest_returns env rs w2 req hreq
  rw [h1, h2] at hsame
  simp only [responseOf, Option.map_some', Option.some.injEq] at hsame
  exact ⟨res, u1, u2, h1, by rw [h2, hsame]⟩

/-- C17 at concrete inputs: a prevote at height 12 dispatched in `sampleWorld`
and in `otherWorld`, which differ in recorded heights and counters. -/
theorem response_independent_of_tracker_witness :
    responseOf (handleRequest sampleEnv (sampleSigner none (.ok sampleKey)) sampleWorld
        ⟨some (.SignVoteRequest (some { Type_ := PrevoteType, Height := 12 }) "chain")⟩) =
      responseOf (handleRequest sampleEnv (sampleSigner none (.ok sampleKey)) otherWorld
        ⟨some (.SignVoteRequest (some { Type_ := PrevoteType, Height := 12 }) "chain")⟩) ∧
    ∃ res u1 u2,
      handleRequest sampleEnv (sampleSigner none (.ok sampleKey)) sampleWorld
        ⟨some (.SignVoteRequest (some { Type_ := PrevoteType, Height := 12 }) "chain")⟩ =
        some (res, u1) ∧
      handleRequest sampleEnv (sampleSigner none (.ok sampleKey)) otherWorld
        ⟨some (.SignVoteRequest (some { Type_ := PrevoteType, Height := 12 }) "chain")⟩ =
        some (res, u2) :=
  ⟨(response_independent_of_tracker sampleEnv (sampleSigner none (.ok sampleKey))
      sampleWorld otherWorld
      ⟨some (.SignVoteRequest (some { Type_ := PrevoteType, Height := 12 }) "chain")⟩ rfl).1,
   (response_independent_of_tracker sampleEnv (sampleSigner none (.ok sampleKey))
      sampleWorld otherWorld
      ⟨some (.SignVoteRequest (some { Type_ := PrevoteType, Height := 12 }) "chain")⟩ rfl).2
      rfl⟩

/-! ## C18: the logged signature prefix -/

/-- C18: for every vote that the authority signs without error, whatever the
length `n` of its signature (0 included), the prefix length `sigLen` is
`min 6 n`, which is at most `n`, so the slice `vote.Signature[:sigLen]` is in
range (it is the first `sigLen` bytes), and `handleSignVoteRequest` returns the
`SignedVoteResponse` with that vote. -/
theorem signature_prefix_in_bounds {σ : Type} (env : Env) (rs : ReconnRemoteSigner σ)
    (w : World σ) (vote0 vote : Vote) (pv1 : σ)
    (h : rs.privVal.SignVote w.pv rs.chainID vote0 = (pv1, vote, none)) :
    sigLen vote = min 6 vote.Signature.length ∧
    sigLen vote ≤ vote.Signature.length ∧
    sliceTo vote.Signature (sigLen vote) = some (vote.Signature.take (sigLen vote)) ∧
    ∃ w1, handleSignVoteRequest env rs w (some vote0) =
      some (⟨some (.SignedVoteResponse vote none)⟩, w1) := by
  refine ⟨?_, ?_, sliceTo_sigLen vote,
    ⟨_, handleSignVoteRequest_signed env rs w vote0 vote pv1 h⟩⟩
  · unfold sigLen
    split <;> omega
  · unfold sigLen
    split <;> omega

/-- C18 at concrete inputs: a vote that comes back with an empty signature
(`n = 0`). -/
theorem signature_prefix_in_bounds_witness :
    sigLen { Type_ := PrevoteType, Height := 12 } =
      min 6 (List.length ({ Type_ := PrevoteType, Height := 12 } : Vote).Signature) ∧
    sigLen { Type_ := PrevoteType, Height := 12 } ≤
      List.length ({ Type_ := PrevoteType, Height := 12 } : Vote).Signature ∧
    sliceTo ({ Type_ := PrevoteType, Height := 12 } : Vote).Signature
        (sigLen { Type_ := PrevoteType, Height := 12 }) =
      some (List.take (sigLen { Type_ := PrevoteType, Height := 12 })
        ({ Type_ := PrevoteType, Height := 12 } : Vote).Signature) ∧
    ∃ w1, handleSignVoteRequest sampleEnv echoSigner sampleWorld
        (some { Type_ := PrevoteType, Height := 12 }) =
      some (⟨some (.SignedVoteResponse { Type_ := PrevoteType, Height := 12 } none)⟩, w1) :=
  signature_prefix_in_bounds sampleEnv echoSigner sampleWorld
    { Type_ := PrevoteType, Height := 12 } { Type_ := PrevoteType, Height := 12 } 1 rfl

end Horcrux
